import Mathlib

/-!
Formal model of the ISA-JSON loader/validator (`isatools/isajson.py`).

The development shallowly embeds, in Lean:
  * the raw JSON tree and the schema-agnostic reference walkers
    (`_collect_object_refs`, `_collect_id_refs`, `_collect_term_source_refs`,
    `_check_object_refs`, `walk_and_get_annotations`);
  * the identifier registries and the entity-building pipeline of `load`
    (dict population order, process input/output resolution, the prefix
    stripping applied to material names);
  * the provenance-graph builder `_build_assay_graph`;
  * the structural checks (`check_pubmed_ids_format`, date/DOI checks) and
    the control flow of `validate` / `validate_isajson`;
  * the declared/used reconciliation checks
    (`check_process_protocol_ids_usage`, `check_term_source_refs`).

Components that live outside this repository (`isatools.validate.utils`,
the external JSON-schema validator, the filesystem, character encoding
detection) are modelled from the specification at their interfaces; each
such definition is marked `Modelled from the spec:` in its doc comment.
-/

namespace IsaJson

/-! ## Raw JSON trees

The Python `json.load` call produces dicts / lists / scalars.  We mirror that with
a mutually inductive tree so all structural recursions are plainly
structural.  Dict keys are kept in insertion order, as CPython does.
-/

mutual

inductive Json where
  | str : String → Json
  | num : Int → Json
  | obj : JObj → Json
  | arr : JArr → Json
deriving DecidableEq

inductive JObj where
  | nil : JObj
  | cons : String → Json → JObj → JObj
deriving DecidableEq

inductive JArr where
  | nil : JArr
  | cons : Json → JArr → JArr
deriving DecidableEq

end

/-- Keys of a JSON object, in insertion order (Python `isa_json.keys()`). -/
def JObj.keys : JObj → List String
  | .nil => []
  | .cons k _ r => k :: keys r

/-- Lookup of a key in a JSON object (Python `isa_json[k]`); first binding
wins, and objects produced by `json.load` have distinct keys. -/
def JObj.find : JObj → String → Option Json
  | .nil, _ => none
  | .cons k v r, k' => if k = k' then some v else find r k'

/-- Build an object from an association list. -/
def JObj.ofList : List (String × Json) → JObj
  | [] => .nil
  | (k, v) :: r => .cons k v (ofList r)

/-- Build an array from a list. -/
def JArr.ofList : List Json → JArr
  | [] => .nil
  | v :: r => .cons v (ofList r)

/-- Python `len(set(keys)) > 1` together with `"@id" in set(keys)`: the
object is an identifier *declaration* (it carries `@id` plus at least one
other key). -/
def isDeclShape (o : JObj) : Bool :=
  "@id" ∈ o.keys && 1 < o.keys.dedup.length

/-- Python `len(set(keys)) == 1` with `"@id" in set(keys)`: the object is a
bare identifier *usage* `{"@id": ...}`. -/
def isBareRefShape (o : JObj) : Bool :=
  "@id" ∈ o.keys && o.keys.dedup.length = 1

/-- The `@id` value of an object, when present. -/
def idValue (o : JObj) : Option Json := o.find "@id"

/-! ### `_collect_object_refs` (isajson.py lines 732-743)

Walks the whole tree; every object whose key set contains `@id` plus at
least one other key contributes its `@id` value (once) to the accumulator.
-/

mutual

def collectObjectRefs : Json → List Json → List Json
  | .str _, acc => acc
  | .num _, acc => acc
  | .arr a, acc => collectObjectRefsA a acc
  | .obj o, acc =>
    let acc1 :=
      match idValue o with
      | some v => if isDeclShape o && v ∉ acc then acc ++ [v] else acc
      | none => acc
    collectObjectRefsO o acc1

def collectObjectRefsO : JObj → List Json → List Json
  | .nil, acc => acc
  | .cons _ v r, acc => collectObjectRefsO r (collectObjectRefs v acc)

def collectObjectRefsA : JArr → List Json → List Json
  | .nil, acc => acc
  | .cons v r, acc => collectObjectRefsA r (collectObjectRefs v acc)

end

/-! ### `_collect_id_refs` (lines 745-756): bare `{"@id": ...}` usages. -/

mutual

def collectIdRefs : Json → List Json → List Json
  | .str _, acc => acc
  | .num _, acc => acc
  | .arr a, acc => collectIdRefsA a acc
  | .obj o, acc =>
    let acc1 :=
      match idValue o with
      | some v => if isBareRefShape o && v ∉ acc then acc ++ [v] else acc
      | none => acc
    collectIdRefsO o acc1

def collectIdRefsO : JObj → List Json → List Json
  | .nil, acc => acc
  | .cons _ v r, acc => collectIdRefsO r (collectIdRefs v acc)

def collectIdRefsA : JArr → List Json → List Json
  | .nil, acc => acc
  | .cons v r, acc => collectIdRefsA r (collectIdRefs v acc)

end

/-! ### `_collect_term_source_refs` (lines 758-769)

Objects with key set of size 3 including `termSource` contribute their
`termSource` value. -/

mutual

def collectTermSourceRefs : Json → List Json → List Json
  | .str _, acc => acc
  | .num _, acc => acc
  | .arr a, acc => collectTermSourceRefsA a acc
  | .obj o, acc =>
    let acc1 :=
      match o.find "termSource" with
      | some v =>
        if "termSource" ∈ o.keys && o.keys.dedup.length = 3 && v ∉ acc then
          acc ++ [v]
        else acc
      | none => acc
    collectTermSourceRefsO o acc1

def collectTermSourceRefsO : JObj → List Json → List Json
  | .nil, acc => acc
  | .cons _ v r, acc => collectTermSourceRefsO r (collectTermSourceRefs v acc)

def collectTermSourceRefsA : JArr → List Json → List Json
  | .nil, acc => acc
  | .cons v r, acc => collectTermSourceRefsA r (collectTermSourceRefs v acc)

end

/-! ### `_check_object_refs` (lines 771-782)

Emits one error per bare `{"@id": ...}` occurrence whose id is not among
the collected declarations and is not the literal
`#parameter/Array_Design_REF`.  We return the offending `@id` values in
emission order; each corresponds to one
`report.error("Object reference ... not declared anywhere")` call. -/

def arrayDesignRef : Json := .str "#parameter/Array_Design_REF"

mutual

def checkObjectRefs : Json → List Json → List Json
  | .str _, _ => []
  | .num _, _ => []
  | .arr a, refs => checkObjectRefsA a refs
  | .obj o, refs =>
    let here :=
      match idValue o with
      | some v =>
        if isBareRefShape o && v ∉ refs && v ≠ arrayDesignRef then [v] else []
      | none => []
    here ++ checkObjectRefsO o refs

def checkObjectRefsO : JObj → List Json → List Json
  | .nil, _ => []
  | .cons _ v r, refs => checkObjectRefs v refs ++ checkObjectRefsO r refs

def checkObjectRefsA : JArr → List Json → List Json
  | .nil, _ => []
  | .cons v r, refs => checkObjectRefs v refs ++ checkObjectRefsA r refs

end

/-- Rendering of the error emitted by `_check_object_refs` for a bare
string reference (Python
`"Object reference {} not declared anywhere".format(...)`). -/
def objectRefErrorMsg (id : String) : String :=
  "Object reference " ++ id ++ " not declared anywhere"

/-! ### `walk_and_get_annotations` (lines 1238-1255)

Collects every object whose key set is exactly
`{annotationValue, termAccession, termSource}` or that set plus `@id`. -/

def isAnnShape (o : JObj) : Bool :=
  o.keys.dedup.length = 3 &&
    "annotationValue" ∈ o.keys && "termAccession" ∈ o.keys &&
    "termSource" ∈ o.keys

def isAnnShapeWithId (o : JObj) : Bool :=
  o.keys.dedup.length = 4 &&
    "@id" ∈ o.keys && "annotationValue" ∈ o.keys &&
    "termAccession" ∈ o.keys && "termSource" ∈ o.keys

mutual

def walkAnns : Json → List JObj
  | .str _ => []
  | .num _ => []
  | .arr a => walkAnnsA a
  | .obj o =>
    (if isAnnShape o || isAnnShapeWithId o then [o] else []) ++ walkAnnsO o

def walkAnnsO : JObj → List JObj
  | .nil => []
  | .cons _ v r => walkAnns v ++ walkAnnsO r

def walkAnnsA : JArr → List JObj
  | .nil => []
  | .cons v r => walkAnns v ++ walkAnnsA r

end

end IsaJson

namespace IsaJson

/-! ## Structured documents

The loader reads a fixed set of fields from the raw document.  We mirror
those fields with records; `Option` fields model JSON keys the code reads
inside `try/except KeyError` (or reads only on some branches).  `toJson`
renders a structured document back to the raw tree that the walkers
traverse, using the exact ISA-JSON key names the Python code indexes.
-/

structure CommentJson where
  name : String
  value : String
deriving DecidableEq

/-- An ontology-annotation JSON object: `annotationValue`, `termAccession`,
`termSource`, optionally `@id` (both shapes are recognised by the walkers
at isajson.py lines 676-677 and 1248-1249). -/
structure AnnJson where
  idOpt : Option String
  annotationValue : String
  termAccession : String
  termSource : String
deriving DecidableEq

structure OsrJson where
  name : String
  file : String
  version : String
  description : String
deriving DecidableEq

structure PublicationJson where
  pubMedID : String
  doi : String
  authorList : String
  title : String
  status : AnnJson
  comments : Option (List CommentJson)
deriving DecidableEq

structure PersonJson where
  lastName : String
  firstName : String
  midInitials : String
  email : String
  phone : String
  fax : String
  address : String
  affiliation : String
  roles : List AnnJson
  comments : Option (List CommentJson)
deriving DecidableEq

structure CharCatJson where
  id : String
  characteristicType : AnnJson
deriving DecidableEq

structure UnitJson where
  id : String
  annotationValue : String
  termSource : String
  termAccession : String
deriving DecidableEq

structure ParameterJson where
  id : String
  parameterName : AnnJson
deriving DecidableEq

structure ComponentJson where
  componentName : String
  componentType : AnnJson
deriving DecidableEq

structure ProtocolJson where
  id : String
  name : String
  uri : String
  description : String
  version : String
  protocolType : AnnJson
  parameters : List ParameterJson
  components : List ComponentJson
deriving DecidableEq

structure FactorJson where
  id : String
  factorName : String
  factorType : AnnJson
deriving DecidableEq

/-- A characteristic / parameter / factor `value` field: a dict shaped as
an ontology annotation, a number, a string, or null. -/
inductive ValJson where
  | vann (a : AnnJson)
  | vnum (n : Int)
  | vstr (s : String)
  | vnull
deriving DecidableEq

structure CharacteristicJson where
  category : String
  value : ValJson
  unitRef : Option String
deriving DecidableEq

structure FactorValueJson where
  category : String
  value : ValJson
  unitRef : Option String
deriving DecidableEq

structure SourceJson where
  id : String
  name : String
  characteristics : List CharacteristicJson
deriving DecidableEq

structure SampleJson where
  id : String
  name : String
  derivesFrom : List String
  characteristics : List CharacteristicJson
  factorValues : List FactorValueJson
deriving DecidableEq

structure ParameterValueJson where
  category : String
  value : ValJson
  unitRef : Option String
deriving DecidableEq

structure ProcJson where
  id : String
  executesProtocol : Option String
  nameOpt : Option String
  comments : Option (List CommentJson)
  date : Option String
  performer : Option String
  parameterValues : List ParameterValueJson
  inputs : List String
  outputs : List String
  previousProcess : Option String
  nextProcess : Option String
deriving DecidableEq

structure DataFileJson where
  id : String
  name : String
  ftype : String
  comments : Option (List CommentJson)
deriving DecidableEq

structure OtherMaterialJson where
  id : String
  name : String
  mtype : String
  characteristics : List CharacteristicJson
deriving DecidableEq

structure AssayMaterialsJson where
  samples : List String
  otherMaterials : List OtherMaterialJson
deriving DecidableEq

structure AssayJson where
  measurementType : AnnJson
  technologyType : AnnJson
  technologyPlatform : String
  filename : String
  unitCategories : List UnitJson
  dataFiles : List DataFileJson
  materials : AssayMaterialsJson
  characteristicCategories : List CharCatJson
  processSequence : List ProcJson
deriving DecidableEq

structure StudyMaterialsJson where
  sources : List SourceJson
  samples : List SampleJson
deriving DecidableEq

structure StudyJson where
  identifier : String
  title : String
  description : String
  submissionDate : String
  publicReleaseDate : String
  filename : String
  comments : Option (List CommentJson)
  characteristicCategories : List CharCatJson
  unitCategories : List UnitJson
  publications : List PublicationJson
  people : List PersonJson
  studyDesignDescriptors : List AnnJson
  protocols : List ProtocolJson
  factors : List FactorJson
  materials : StudyMaterialsJson
  processSequence : List ProcJson
  assays : List AssayJson
deriving DecidableEq

structure Doc where
  identifier : String
  title : String
  description : String
  submissionDate : String
  publicReleaseDate : String
  comments : List CommentJson
  ontologySourceReferences : List OsrJson
  publications : List PublicationJson
  people : List PersonJson
  studies : List StudyJson
deriving DecidableEq

/-! ### Rendering structured documents to raw JSON -/

/-- A bare identifier reference `{"@id": s}`. -/
def bareRef (s : String) : Json := .obj (.cons "@id" (.str s) .nil)

/-- An optional key-value entry. -/
def optEntry (k : String) : Option Json → List (String × Json)
  | some v => [(k, v)]
  | none => []

def CommentJson.toJson (c : CommentJson) : Json :=
  .obj (JObj.ofList [("name", .str c.name), ("value", .str c.value)])

def commentsArr (cs : List CommentJson) : Json :=
  .arr (JArr.ofList (cs.map CommentJson.toJson))

def AnnJson.toJson (a : AnnJson) : Json :=
  .obj (JObj.ofList
    (optEntry "@id" (a.idOpt.map Json.str) ++
      [("annotationValue", .str a.annotationValue),
       ("termAccession", .str a.termAccession),
       ("termSource", .str a.termSource)]))

def OsrJson.toJson (o : OsrJson) : Json :=
  .obj (JObj.ofList
    [("name", .str o.name), ("file", .str o.file),
     ("version", .str o.version), ("description", .str o.description)])

def PublicationJson.toJson (p : PublicationJson) : Json :=
  .obj (JObj.ofList
    ([("pubMedID", .str p.pubMedID), ("doi", .str p.doi),
      ("authorList", .str p.authorList), ("title", .str p.title),
      ("status", p.status.toJson)] ++
      optEntry "comments" (p.comments.map commentsArr)))

def PersonJson.toJson (p : PersonJson) : Json :=
  .obj (JObj.ofList
    ([("lastName", .str p.lastName), ("firstName", .str p.firstName),
      ("midInitials", .str p.midInitials), ("email", .str p.email),
      ("phone", .str p.phone), ("fax", .str p.fax),
      ("address", .str p.address), ("affiliation", .str p.affiliation),
      ("roles", .arr (JArr.ofList (p.roles.map AnnJson.toJson)))] ++
      optEntry "comments" (p.comments.map commentsArr)))

def CharCatJson.toJson (c : CharCatJson) : Json :=
  .obj (JObj.ofList
    [("@id", .str c.id),
     ("characteristicType", c.characteristicType.toJson)])

def UnitJson.toJson (u : UnitJson) : Json :=
  .obj (JObj.ofList
    [("@id", .str u.id), ("annotationValue", .str u.annotationValue),
     ("termSource", .str u.termSource),
     ("termAccession", .str u.termAccession)])

def ParameterJson.toJson (p : ParameterJson) : Json :=
  .obj (JObj.ofList
    [("@id", .str p.id), ("parameterName", p.parameterName.toJson)])

def ComponentJson.toJson (c : ComponentJson) : Json :=
  .obj (JObj.ofList
    [("componentName", .str c.componentName),
     ("componentType", c.componentType.toJson)])

def ProtocolJson.toJson (p : ProtocolJson) : Json :=
  .obj (JObj.ofList
    [("@id", .str p.id), ("name", .str p.name), ("uri", .str p.uri),
     ("description", .str p.description), ("version", .str p.version),
     ("protocolType", p.protocolType.toJson),
     ("parameters", .arr (JArr.ofList (p.parameters.map ParameterJson.toJson))),
     ("components", .arr (JArr.ofList (p.components.map ComponentJson.toJson)))])

def FactorJson.toJson (f : FactorJson) : Json :=
  .obj (JObj.ofList
    [("@id", .str f.id), ("factorName", .str f.factorName),
     ("factorType", f.factorType.toJson)])

def ValJson.toJson : ValJson → Json
  | .vann a => a.toJson
  | .vnum n => .num n
  | .vstr s => .str s
  | .vnull => .obj .nil

def CharacteristicJson.toJson (c : CharacteristicJson) : Json :=
  .obj (JObj.ofList
    ([("category", bareRef c.category), ("value", c.value.toJson)] ++
      optEntry "unit" (c.unitRef.map bareRef)))

def FactorValueJson.toJson (f : FactorValueJson) : Json :=
  .obj (JObj.ofList
    ([("category", bareRef f.category), ("value", f.value.toJson)] ++
      optEntry "unit" (f.unitRef.map bareRef)))

def SourceJson.toJson (s : SourceJson) : Json :=
  .obj (JObj.ofList
    [("@id", .str s.id), ("name", .str s.name),
     ("characteristics",
      .arr (JArr.ofList (s.characteristics.map CharacteristicJson.toJson)))])

def SampleJson.toJson (s : SampleJson) : Json :=
  .obj (JObj.ofList
    [("@id", .str s.id), ("name", .str s.name),
     ("derivesFrom", .arr (JArr.ofList (s.derivesFrom.map bareRef))),
     ("characteristics",
      .arr (JArr.ofList (s.characteristics.map CharacteristicJson.toJson))),
     ("factorValues",
      .arr (JArr.ofList (s.factorValues.map FactorValueJson.toJson)))])

def ParameterValueJson.toJson (p : ParameterValueJson) : Json :=
  .obj (JObj.ofList
    ([("category", bareRef p.category), ("value", p.value.toJson)] ++
      optEntry "unit" (p.unitRef.map bareRef)))

def ProcJson.toJson (p : ProcJson) : Json :=
  .obj (JObj.ofList
    ([("@id", .str p.id)] ++
      optEntry "executesProtocol" (p.executesProtocol.map bareRef) ++
      optEntry "name" (p.nameOpt.map Json.str) ++
      optEntry "comments" (p.comments.map commentsArr) ++
      optEntry "date" (p.date.map Json.str) ++
      optEntry "performer" (p.performer.map Json.str) ++
      [("parameterValues",
        .arr (JArr.ofList (p.parameterValues.map ParameterValueJson.toJson))),
       ("inputs", .arr (JArr.ofList (p.inputs.map bareRef))),
       ("outputs", .arr (JArr.ofList (p.outputs.map bareRef)))] ++
      optEntry "previousProcess" (p.previousProcess.map bareRef) ++
      optEntry "nextProcess" (p.nextProcess.map bareRef)))

def DataFileJson.toJson (d : DataFileJson) : Json :=
  .obj (JObj.ofList
    ([("@id", .str d.id), ("name", .str d.name), ("type", .str d.ftype)] ++
      optEntry "comments" (d.comments.map commentsArr)))

def OtherMaterialJson.toJson (m : OtherMaterialJson) : Json :=
  .obj (JObj.ofList
    [("@id", .str m.id), ("name", .str m.name), ("type", .str m.mtype),
     ("characteristics",
      .arr (JArr.ofList (m.characteristics.map CharacteristicJson.toJson)))])

def AssayMaterialsJson.toJson (m : AssayMaterialsJson) : Json :=
  .obj (JObj.ofList
    [("samples", .arr (JArr.ofList (m.samples.map bareRef))),
     ("otherMaterials",
      .arr (JArr.ofList (m.otherMaterials.map OtherMaterialJson.toJson)))])

def AssayJson.toJson (a : AssayJson) : Json :=
  .obj (JObj.ofList
    [("measurementType", a.measurementType.toJson),
     ("technologyType", a.technologyType.toJson),
     ("technologyPlatform", .str a.technologyPlatform),
     ("filename", .str a.filename),
     ("unitCategories", .arr (JArr.ofList (a.unitCategories.map UnitJson.toJson))),
     ("dataFiles", .arr (JArr.ofList (a.dataFiles.map DataFileJson.toJson))),
     ("materials", a.materials.toJson),
     ("characteristicCategories",
      .arr (JArr.ofList (a.characteristicCategories.map CharCatJson.toJson))),
     ("processSequence", .arr (JArr.ofList (a.processSequence.map ProcJson.toJson)))])

def StudyMaterialsJson.toJson (m : StudyMaterialsJson) : Json :=
  .obj (JObj.ofList
    [("sources", .arr (JArr.ofList (m.sources.map SourceJson.toJson))),
     ("samples", .arr (JArr.ofList (m.samples.map SampleJson.toJson)))])

def StudyJson.toJson (s : StudyJson) : Json :=
  .obj (JObj.ofList
    ([("identifier", .str s.identifier), ("title", .str s.title),
      ("description", .str s.description),
      ("submissionDate", .str s.submissionDate),
      ("publicReleaseDate", .str s.publicReleaseDate),
      ("filename", .str s.filename)] ++
      optEntry "comments" (s.comments.map commentsArr) ++
      [("characteristicCategories",
        .arr (JArr.ofList (s.characteristicCategories.map CharCatJson.toJson))),
       ("unitCategories",
        .arr (JArr.ofList (s.unitCategories.map UnitJson.toJson))),
       ("publications",
        .arr (JArr.ofList (s.publications.map PublicationJson.toJson))),
       ("people", .arr (JArr.ofList (s.people.map PersonJson.toJson))),
       ("studyDesignDescriptors",
        .arr (JArr.ofList (s.studyDesignDescriptors.map AnnJson.toJson))),
       ("protocols", .arr (JArr.ofList (s.protocols.map ProtocolJson.toJson))),
       ("factors", .arr (JArr.ofList (s.factors.map FactorJson.toJson))),
       ("materials", s.materials.toJson),
       ("processSequence",
        .arr (JArr.ofList (s.processSequence.map ProcJson.toJson))),
       ("assays", .arr (JArr.ofList (s.assays.map AssayJson.toJson)))]))

def Doc.toJson (d : Doc) : Json :=
  .obj (JObj.ofList
    [("identifier", .str d.identifier), ("title", .str d.title),
     ("description", .str d.description),
     ("submissionDate", .str d.submissionDate),
     ("publicReleaseDate", .str d.publicReleaseDate),
     ("comments", commentsArr d.comments),
     ("ontologySourceReferences",
      .arr (JArr.ofList (d.ontologySourceReferences.map OsrJson.toJson))),
     ("publications",
      .arr (JArr.ofList (d.publications.map PublicationJson.toJson))),
     ("people", .arr (JArr.ofList (d.people.map PersonJson.toJson))),
     ("studies", .arr (JArr.ofList (d.studies.map StudyJson.toJson)))])

end IsaJson

namespace IsaJson

/-! ## Entities and identifier registries

`load` keeps one dict per namespace.  Python dict assignment overwrites, so
we model a registry as an association list with the *latest* binding first
(`alookup` returns the first, i.e. most recent, match). -/

inductive Entity where
  | source (id name : String)
  | sample (id name : String)
  | material (id name mtype : String)
  | dataFile (id filename label : String)
deriving DecidableEq

def Entity.isDataFile : Entity → Bool
  | .dataFile _ _ _ => true
  | _ => false

/-- The `name` attribute stored on a material entity (the `filename` of a
data file). -/
def Entity.ename : Entity → String
  | .source _ n => n
  | .sample _ n => n
  | .material _ n _ => n
  | .dataFile _ n _ => n

def alookup {α : Type} : List (String × α) → String → Option α
  | [], _ => none
  | (k', v) :: r, k => if k' = k then some v else alookup r k

abbrev Registry := List (String × Entity)

/-- Python `s[k:]` on the code points of `s`. -/
def strDrop (s : String) (k : Nat) : String := ⟨s.data.drop k⟩

def listStartsWith : List Char → List Char → Bool
  | _, [] => true
  | [], _ :: _ => false
  | a :: as, b :: bs => a = b && listStartsWith as bs

/-- `Source` built with the `@id` key as id and `name[7:]` as name (isajson.py line 282-285). -/
def mkSource (j : SourceJson) : Entity := .source j.id (strDrop j.name 7)

/-- `Sample` built with the `@id` key as id and `name[7:]` as name (lines 313-317). -/
def mkSample (j : SampleJson) : Entity := .sample j.id (strDrop j.name 7)

/-- Assay other-material naming (lines 505-514): a name starting with
`labeledextract-` loses that 15-character tag, any other name loses its
first 8 characters. -/
def mkOtherMaterial (j : OtherMaterialJson) : Entity :=
  if listStartsWith j.name.data "labeledextract-".data then
    .material j.id (strDrop j.name 15) j.mtype
  else
    .material j.id (strDrop j.name 8) j.mtype

/-- `DataFile` built with the `@id` key as id, `name` as filename and `type` as label
(lines 474-478). -/
def mkDataFile (j : DataFileJson) : Entity := .dataFile j.id j.name j.ftype

/-! ## Process input/output resolution

Study level (lines 406-433): `try sources_dict … finally try samples_dict`,
so a hit in `samples_dict` overwrites a hit in `sources_dict`.  Assay level
(lines 552-591): `try samples_dict … finally try other_materials_dict …
finally try data_dict`, with the same overwrite behaviour.  A miss
everywhere raises `IOError` with the messages below. -/

def resolveStudyNode (sources samples : Registry) (id : String) : Option Entity :=
  let hit0 := alookup sources id
  match alookup samples id with
  | some e => some e
  | none => hit0

def resolveAssayNode (samples materials data : Registry) (id : String)
    : Option Entity :=
  let hit0 := alookup samples id
  let hit1 :=
    match alookup materials id with
    | some e => some e
    | none => hit0
  match alookup data id with
  | some e => some e
  | none => hit1

def studyInputErrMsg (id : String) : String :=
  "Could not find input node in sources or samples dicts: " ++ id

def studyOutputErrMsg (id : String) : String :=
  "Could not find output node in sources or samples dicts: " ++ id

def assayInputErrMsg (id : String) : String :=
  "Could not find input node in samples or materials or data dicts: " ++ id

def assayOutputErrMsg (id : String) : String :=
  "Could not find output node in samples or materials or data dicts: " ++ id

def resolveStudyInputs (sources samples : Registry) : List String → Except String (List Entity)
  | [] => .ok []
  | id :: rest =>
    match resolveStudyNode sources samples id with
    | none => .error (studyInputErrMsg id)
    | some e => (resolveStudyInputs sources samples rest).map (fun es => e :: es)

def resolveStudyOutputs (sources samples : Registry) : List String → Except String (List Entity)
  | [] => .ok []
  | id :: rest =>
    match resolveStudyNode sources samples id with
    | none => .error (studyOutputErrMsg id)
    | some e => (resolveStudyOutputs sources samples rest).map (fun es => e :: es)

def resolveAssayInputs (samples materials data : Registry) : List String → Except String (List Entity)
  | [] => .ok []
  | id :: rest =>
    match resolveAssayNode samples materials data id with
    | none => .error (assayInputErrMsg id)
    | some e => (resolveAssayInputs samples materials data rest).map (fun es => e :: es)

def resolveAssayOutputs (samples materials data : Registry) : List String → Except String (List Entity)
  | [] => .ok []
  | id :: rest =>
    match resolveAssayNode samples materials data id with
    | none => .error (assayOutputErrMsg id)
    | some e => (resolveAssayOutputs samples materials data rest).map (fun es => e :: es)

/-! ## The `load` pipeline

The state carries every registry `load` keeps across its single forward
pass (the per-assay `data_dict` / `other_materials_dict` stay local, their
contents are accumulated into `dataFilesAll` / `otherMaterialsAll` so the
final registry contents are observable).  `procObjs` records the
resolved inputs/outputs of each process.  Failures are Python exceptions escaping `load`
(plain `KeyError`s, and the `IOError`s raised explicitly); the `Except`
error carries the message. -/

structure ProcessObj where
  id : String
  inputs : List Entity
  outputs : List Entity
deriving DecidableEq

structure LState where
  termSources : List String
  categories : List String
  units : List String
  protocols : List (String × String)
  parameters : List String
  factors : List String
  sources : Registry
  samples : Registry
  processes : List String
  otherMaterialsAll : Registry
  dataFilesAll : Registry
  procObjs : List ProcessObj
deriving DecidableEq

/-- `term_source_dict[ts]`: a `KeyError` escapes `load` when the term
source was never declared. -/
def getTermSourceE (tss : List String) (ts : String) : Except String Unit :=
  if ts ∈ tss then .ok () else .error ("KeyError: " ++ ts)

/-- `term_source_dict` seeded with the empty-string key mapped to `None`, then one entry per ontology source
reference (lines 54-64). -/
def loadOsrs (d : Doc) : List String :=
  "" :: d.ontologySourceReferences.map (fun o => o.name)

/-- Building a `Publication` only dereferences the term source of the status annotation (lines 65-87 / 170-192). -/
def loadPublicationE (tss : List String) (p : PublicationJson) : Except String Unit :=
  getTermSourceE tss p.status.termSource

/-- Building a `Person`: each role annotation dereferences its term source;
investigation-level people read `comments` without a `try` (line 107),
study-level people read it inside `try/except KeyError` (lines 212-220). -/
def loadPersonE (tss : List String) (commentsRequired : Bool) (p : PersonJson) :
    Except String Unit := do
  let _ ← p.roles.mapM (fun r => getTermSourceE tss r.termSource)
  if commentsRequired then
    match p.comments with
    | none => throw "KeyError: comments"
    | some _ => pure ()
  else pure ()

/-- Characteristic-category registration (lines 127-135, 155-163,
493-501): dereference the term source of the type, then
`categories_dict[id] = category`. -/
def loadCharCatE (st : LState) (c : CharCatJson) : Except String LState := do
  let _ ← getTermSourceE st.termSources c.characteristicType.termSource
  return { st with categories := c.id :: st.categories }

/-- Unit-category registration (lines 164-169, 465-470). -/
def loadUnitE (st : LState) (u : UnitJson) : Except String LState := do
  let _ ← getTermSourceE st.termSources u.termSource
  return { st with units := u.id :: st.units }

/-- Protocol parameter registration (lines 244-254): the parameter name
annotation, then `parameters_dict[id] = parameter`. -/
def loadParameterE (st : LState) (param : ParameterJson) : Except String LState := do
  let _ ← getTermSourceE st.termSources param.parameterName.termSource
  return { st with parameters := param.id :: st.parameters }

/-- Protocol registration (lines 230-266): protocol type, then parameters,
then components, then `protocols_dict[id] = protocol`.  We keep the
protocol type name alongside the id because assay processing branches on
it. -/
def loadProtocolE (st : LState) (p : ProtocolJson) : Except String LState := do
  let _ ← getTermSourceE st.termSources p.protocolType.termSource
  let st ← p.parameters.foldlM loadParameterE st
  let _ ← p.components.mapM (fun c => getTermSourceE st.termSources c.componentType.termSource)
  return { st with protocols := (p.id, p.protocolType.annotationValue) :: st.protocols }

/-- Factor registration (lines 267-279). -/
def loadFactorE (st : LState) (f : FactorJson) : Except String LState := do
  let _ ← getTermSourceE st.termSources f.factorType.termSource
  return { st with factors := f.id :: st.factors }

/-- Source/sample characteristic building (lines 286-308, 318-341):
`categories_dict` lookup, then the three-way value branch — a dict is read
as an annotation (`IOError` if a key or the term source is missing), a
number requires a declared unit (`IOError` otherwise), a string is stored
as-is, anything else is rejected. -/
def loadCharacteristicE (st : LState) (c : CharacteristicJson) : Except String Unit := do
  if c.category ∈ st.categories then pure ()
  else throw ("KeyError: " ++ c.category)
  match c.value with
  | .vann a =>
    if a.termSource ∈ st.termSources then pure ()
    else throw "IOError: cannot create value as annotation"
  | .vnum _ =>
    match c.unitRef with
    | some u => if u ∈ st.units then pure () else throw "IOError: cannot create unit annotation"
    | none => throw "IOError: cannot create unit annotation"
  | .vstr _ => pure ()
  | .vnull => throw "Unexpected type in characteristic value"

/-- Sample factor-value building (lines 342-360): `factors_dict` lookup
first; a dict value is read as an annotation (`KeyError`s escape), any
other value falls into the `except TypeError` branch which requires a
declared unit. -/
def loadFactorValueE (st : LState) (f : FactorValueJson) : Except String Unit := do
  if f.category ∈ st.factors then pure ()
  else throw ("KeyError: " ++ f.category)
  match f.value with
  | .vann a =>
    if a.termSource ∈ st.termSources then pure ()
    else throw ("KeyError: " ++ a.termSource)
  | _ =>
    match f.unitRef with
    | none => throw "KeyError: unit"
    | some u => if u ∈ st.units then pure () else throw ("KeyError: " ++ u)

/-- Source building and registration (lines 280-310). -/
def loadSourceE (st : LState) (j : SourceJson) : Except String LState := do
  let _ ← j.characteristics.mapM (loadCharacteristicE st)
  return { st with sources := (j.id, mkSource j) :: st.sources }

/-- Sample building and registration (lines 311-362). -/
def loadSampleE (st : LState) (j : SampleJson) : Except String LState := do
  let _ ← j.characteristics.mapM (loadCharacteristicE st)
  let _ ← j.factorValues.mapM (loadFactorValueE st)
  return { st with samples := (j.id, mkSample j) :: st.samples }

/-- Study-level parameter-value building (lines 386-405): a numeric value
needs a declared category and unit; otherwise the category is looked up
and a dict value is read as an annotation (`KeyError`s escape, a
`TypeError` falls back to the raw value). -/
def loadStudyParamValueE (st : LState) (pv : ParameterValueJson) : Except String Unit := do
  match pv.value with
  | .vnum _ =>
    if pv.category ∈ st.parameters then pure ()
    else throw ("KeyError: " ++ pv.category)
    match pv.unitRef with
    | none => throw "KeyError: unit"
    | some u => if u ∈ st.units then pure () else throw ("KeyError: " ++ u)
  | .vann a =>
    if pv.category ∈ st.parameters then pure ()
    else throw ("KeyError: " ++ pv.category)
    if a.termSource ∈ st.termSources then pure ()
    else throw ("KeyError: " ++ a.termSource)
  | _ =>
    if pv.category ∈ st.parameters then pure ()
    else throw ("KeyError: " ++ pv.category)

/-- Assay-level parameter values (lines 592-614) add one special case: the
category `#parameter/Array_Design_REF` is routed to
`additional_properties` with no registry lookups at all. -/
def loadAssayParamValueE (st : LState) (pv : ParameterValueJson) : Except String Unit :=
  if pv.category = "#parameter/Array_Design_REF" then pure ()
  else loadStudyParamValueE st pv

/-- Study-level process building (lines 363-435): `protocols_dict` lookup,
optional comments/date/performer, parameter values, then input/output
resolution against sources/samples, then registration. -/
def loadStudyProcessE (st : LState) (p : ProcJson) : Except String LState :=
  match p.executesProtocol with
  | none => .error "KeyError: executesProtocol"
  | some pid =>
    match alookup st.protocols pid with
    | none => .error ("KeyError: " ++ pid)
    | some _ =>
      match p.parameterValues.mapM (loadStudyParamValueE st) with
      | .error e => .error e
      | .ok _ =>
        match resolveStudyInputs st.sources st.samples p.inputs with
        | .error e => .error e
        | .ok ins =>
          match resolveStudyOutputs st.sources st.samples p.outputs with
          | .error e => .error e
          | .ok outs =>
            .ok { st with processes := p.id :: st.processes,
                          procObjs := st.procObjs ++ [⟨p.id, ins, outs⟩] }

/-- Assay material characteristic building (lines 515-524): the value is
read as an annotation unconditionally, so a non-dict value is a
`TypeError` escaping `load`. -/
def loadAssayMatCharE (st : LState) (c : CharacteristicJson) : Except String Unit := do
  if c.category ∈ st.categories then pure ()
  else throw ("KeyError: " ++ c.category)
  match c.value with
  | .vann a =>
    if a.termSource ∈ st.termSources then pure ()
    else throw ("KeyError: " ++ a.termSource)
  | _ => throw "TypeError: characteristic value is not a dict"

/-- Assay process building (lines 527-616): protocol lookup, the
hard-coded name special cases (which read the `name` key only on those
branches), input/output resolution against samples / the per-assay local
other-materials and data-file dicts, parameter values, registration. -/
def loadAssayProcessBody (matLocal dataLocal : Registry)
    (st : LState) (p : ProcJson) : Except String LState :=
  match resolveAssayInputs st.samples matLocal dataLocal p.inputs with
  | .error e => .error e
  | .ok ins =>
    match resolveAssayOutputs st.samples matLocal dataLocal p.outputs with
    | .error e => .error e
    | .ok outs =>
      match p.parameterValues.mapM (loadAssayParamValueE st) with
      | .error e => .error e
      | .ok _ =>
        .ok { st with processes := p.id :: st.processes,
                      procObjs := st.procObjs ++ [⟨p.id, ins, outs⟩] }

/-- Assay process building, outer part: protocol lookup and the
hard-coded protocol-type name special cases (which read the `name` key
only on those branches) before the shared body. -/
def loadAssayProcessE (tech : String) (matLocal dataLocal : Registry)
    (st : LState) (p : ProcJson) : Except String LState :=
  match p.executesProtocol with
  | none => .error "KeyError: executesProtocol"
  | some pid =>
    match alookup st.protocols pid with
    | none => .error ("KeyError: " ++ pid)
    | some ptype =>
      if (ptype = "data collection" && tech = "DNA microarray") ||
         ptype = "nucleic acid sequencing" || ptype = "nucleic acid hybridization" ||
         ptype = "data transformation" || ptype = "data normalization" then
        match p.nameOpt with
        | none => .error "KeyError: name"
        | some _ => loadAssayProcessBody matLocal dataLocal st p
      else loadAssayProcessBody matLocal dataLocal st p

/-- Sample-reference check of an assay: every sample reference must be a
key of the global `samples_dict` (lines 439-447). -/
def checkAssaySampleRefs (samples : Registry) (rs : List String) :
    Except String (List Unit) :=
  rs.mapM (fun r =>
    match alookup samples r with
    | some _ => .ok ()
    | none => .error ("KeyError: " ++ r))

def checkAssayMatChars (st : LState) (ms : List OtherMaterialJson) :
    Except String (List (List Unit)) :=
  ms.mapM (fun j => j.characteristics.mapM (loadAssayMatCharE st))

/-- The per-assay local data-file dict `data_dict` (lines 467-490). -/
def assayDataLocal (a : AssayJson) : Registry :=
  a.dataFiles.foldl (fun acc j => (j.id, mkDataFile j) :: acc) []

/-- The per-assay local other-materials dict `other_materials_dict`
(lines 491-514). -/
def assayMatLocal (a : AssayJson) : Registry :=
  a.materials.otherMaterials.foldl
    (fun acc j => (j.id, mkOtherMaterial j) :: acc) []

/-- Assay building (lines 448-628): type annotations, unit categories,
data files (local `data_dict`), sample references, characteristic
categories, other materials (local `other_materials_dict`), processes.
The second pass over `previousProcess`/`nextProcess` swallows all
`KeyError`s and registers nothing, and the graph construction adds no
registry entries, so neither affects the state beyond what is recorded
here. -/
def loadAssayE (st : LState) (a : AssayJson) : Except String LState := do
  let _ ← getTermSourceE st.termSources a.measurementType.termSource
  let _ ← getTermSourceE st.termSources a.technologyType.termSource
  let st ← a.unitCategories.foldlM loadUnitE st
  let _ ← checkAssaySampleRefs st.samples a.materials.samples
  let st ← a.characteristicCategories.foldlM loadCharCatE st
  let _ ← checkAssayMatChars st a.materials.otherMaterials
  let st ← a.processSequence.foldlM
    (loadAssayProcessE a.technologyType.annotationValue (assayMatLocal a)
      (assayDataLocal a)) st
  return { st with otherMaterialsAll := assayMatLocal a ++ st.otherMaterialsAll,
                   dataFilesAll := assayDataLocal a ++ st.dataFilesAll }

/-- Study building (lines 136-631), in source order. -/
def loadStudyE (st : LState) (s : StudyJson) : Except String LState := do
  let st ← s.characteristicCategories.foldlM loadCharCatE st
  let st ← s.unitCategories.foldlM loadUnitE st
  let _ ← s.publications.mapM (loadPublicationE st.termSources)
  let _ ← s.people.mapM (loadPersonE st.termSources false)
  let _ ← s.studyDesignDescriptors.mapM
    (fun a => getTermSourceE st.termSources a.termSource)
  let st ← s.protocols.foldlM loadProtocolE st
  let st ← s.factors.foldlM loadFactorE st
  let st ← s.materials.sources.foldlM loadSourceE st
  let st ← s.materials.samples.foldlM loadSampleE st
  let st ← s.processSequence.foldlM loadStudyProcessE st
  let st ← s.assays.foldlM loadAssayE st
  return st

def initialState : LState :=
  { termSources := [], categories := [], units := [], protocols := [],
    parameters := [], factors := [], sources := [], samples := [],
    processes := [], otherMaterialsAll := [], dataFilesAll := [],
    procObjs := [] }

/-- The whole of `load` (lines 33-634): investigation header, ontology
source references, investigation publications and people, the pre-pass
registering every assay characteristic category (lines 124-135), then the
studies. -/
def loadModel (d : Doc) : Except String LState := do
  let tss := loadOsrs d
  let _ ← d.publications.mapM (loadPublicationE tss)
  let _ ← d.people.mapM (loadPersonE tss true)
  let st0 : LState := { initialState with termSources := tss }
  let st1 ← d.studies.foldlM
    (fun st s =>
      s.assays.foldlM
        (fun st a => a.characteristicCategories.foldlM loadCharCatE st) st)
    st0
  d.studies.foldlM loadStudyE st1

/-- The identifiers held by the registries the loader populates (sources,
samples, other materials, data files, protocols, parameters, factors,
characteristic categories, unit categories, processes). -/
def LState.allIds (st : LState) : List String :=
  st.sources.map Prod.fst ++ st.samples.map Prod.fst ++
  st.otherMaterialsAll.map Prod.fst ++ st.dataFilesAll.map Prod.fst ++
  st.protocols.map Prod.fst ++ st.parameters ++ st.factors ++
  st.categories ++ st.units ++ st.processes

end IsaJson

namespace IsaJson

/-! ## The provenance-graph builder `_build_assay_graph` (lines 16-31)

Nodes are processes (identified by id) and material entities.
`DiGraph.add_edge` is idempotent, so the edge list is kept duplicate-free
in insertion order. -/

structure ProcessNode where
  pid : String
  inputs : List Entity
  outputs : List Entity
  prevProcess : Option String
  nextProcess : Option String
deriving DecidableEq

inductive GNode where
  | proc (id : String)
  | ent (e : Entity)
deriving DecidableEq

abbrev Edge := GNode × GNode

def addEdge (g : List Edge) (e : Edge) : List Edge :=
  if e ∈ g then g else g ++ [e]

/-- The output side of one loop iteration: when outputs exist, connect the
process to each non-data-file output; else, when a next process is
defined, add the chaining edge to it. -/
def outputSide (g : List Edge) (p : ProcessNode) : List Edge :=
  if p.nextProcess.isSome || !p.outputs.isEmpty then
    if !p.outputs.isEmpty then
      (p.outputs.filter (fun n => !n.isDataFile)).foldl
        (fun g o => addEdge g (.proc p.pid, .ent o)) g
    else
      match p.nextProcess with
      | some n => addEdge g (.proc p.pid, .proc n)
      | none => g
  else g

/-- The input side of one loop iteration: when inputs exist, connect each
input (with no data-file filter) to the process; else, when a previous
process is defined, add the chaining edge from it. -/
def inputSide (g : List Edge) (p : ProcessNode) : List Edge :=
  if p.prevProcess.isSome || !p.inputs.isEmpty then
    if !p.inputs.isEmpty then
      p.inputs.foldl (fun g i => addEdge g (.ent i, .proc p.pid)) g
    else
      match p.prevProcess with
      | some q => addEdge g (.proc q, .proc p.pid)
      | none => g
  else g

/-- One iteration of the `for process in process_sequence` loop. -/
def graphStep (g : List Edge) (p : ProcessNode) : List Edge :=
  inputSide (outputSide g p) p

def buildAssayGraph (ps : List ProcessNode) : List Edge :=
  ps.foldl graphStep []

/-! ## Structural checks -/

/-- Python `re.match` with pattern `[0-9]{8}` succeeds iff `s` has at least
eight characters and its first eight are ASCII digits — `re.match`
anchors at the start only, not at the end. -/
def pmidRegexMatch (s : String) : Bool :=
  8 ≤ s.data.length && (s.data.take 8).all Char.isDigit

/-- Python `re.match` with pattern `PMC[0-9]{8}`: `PMC` followed by at
least eight digits, again a prefix match. -/
def pmcidRegexMatch (s : String) : Bool :=
  listStartsWith s.data "PMC".data &&
  8 ≤ (s.data.drop 3).length && ((s.data.drop 3).take 8).all Char.isDigit

/-- The inner `check_pubmed_id` of `check_pubmed_ids_format`
(lines 1187-1192): the empty string is skipped; otherwise one warning when
neither regex matches. -/
def checkPubmedId (s : String) : List String :=
  if s ≠ "" && !pmidRegexMatch s && !pmcidRegexMatch s then
    ["PubMed ID " ++ s ++ " is not valid format"]
  else []

/-- `check_pubmed_ids_format` (lines 1185-1198): investigation
publications, then each study publication, in order. -/
def checkPubmedIdsFormat (d : Doc) : List String :=
  (d.publications.map (fun p => checkPubmedId p.pubMedID)).flatten ++
  ((d.studies.map
    (fun s => (s.publications.map (fun p => checkPubmedId p.pubMedID)).flatten)).flatten)

/-- Modelled from the spec: ISO-8601 date parsing (the source delegates to
the external `iso8601` parser), simplified to calendar dates `YYYY-MM-DD`
with month 1-12 and day 1-31. -/
def iso8601DateOk (s : String) : Bool :=
  match s.data with
  | [y1, y2, y3, y4, h1, m1, m2, h2, d1, d2] =>
    y1.isDigit && y2.isDigit && y3.isDigit && y4.isDigit &&
    h1 = '-' && h2 = '-' &&
    m1.isDigit && m2.isDigit && d1.isDigit && d2.isDigit &&
    (let m := 10 * (m1.toNat - 48) + (m2.toNat - 48)
     let dd := 10 * (d1.toNat - 48) + (d2.toNat - 48)
     decide (1 ≤ m) && decide (m ≤ 12) && decide (1 ≤ dd) && decide (dd ≤ 31))
  | _ => false

/-- `check_iso8601_date` as used by the validation path (modelled from
the spec for the utils variant; the in-repo variant at lines 1144-1149 has
the same shape): skip the empty string, else warn when the parse fails. -/
def checkIso8601Date (s : String) : List String :=
  if s ≠ "" && !iso8601DateOk s then
    ["Date " ++ s ++ " does not conform to ISO8601 format"]
  else []

/-- Modelled from the spec: DOI regex conformance (the source uses
`10.[0-9]{4,}…/suffix`), simplified to the `10.` prefix, four leading
digits and a slash somewhere after. -/
def doiOk (s : String) : Bool :=
  listStartsWith s.data "10.".data &&
  4 ≤ (s.data.drop 3).length && ((s.data.drop 3).take 4).all Char.isDigit &&
  '/' ∈ s.data

def checkDoi (s : String) : List String :=
  if s ≠ "" && !doiOk s then
    ["DOI " ++ s ++ " does not conform to DOI format"]
  else []

def checkDoisList (d : Doc) : List String :=
  (d.publications.map (fun p => checkDoi p.doi)).flatten ++
  ((d.studies.map
    (fun s => (s.publications.map (fun p => checkDoi p.doi)).flatten)).flatten)

/-! ## The declared/used reconciliation checks (if/elif form) -/

/-- `list(set(xs) - set(ys))`, in first-occurrence order. -/
def setMinus (xs ys : List String) : List String :=
  xs.dedup.filter (fun x => x ∉ ys)

def setMinusJ (xs ys : List Json) : List Json :=
  xs.dedup.filter (fun x => x ∉ ys)

/-- A diagnostic from one of the declared/used checks: either the single
aggregate message for `used − declared` or the one for `declared − used`. -/
inductive UsageDiag where
  | undeclaredUsed (ids : List String)
  | declaredUnused (ids : List String)
deriving DecidableEq

/-- `get_study_protocol_ids` (lines 932-934). -/
def getStudyProtocolIds (s : StudyJson) : List String :=
  s.protocols.map (fun p => p.id)

/-- The `executesProtocol` ids collected by
`check_process_protocol_ids_usage` over the study and assay process
sequences (`try/except KeyError` skips processes without the key). -/
def protocolIdsUsed (s : StudyJson) : List String :=
  s.processSequence.filterMap (fun p => p.executesProtocol) ++
  (s.assays.map
    (fun a => a.processSequence.filterMap (fun p => p.executesProtocol))).flatten

/-- `check_process_protocol_ids_usage` (lines 937-961): `if` the used
minus declared difference is non-empty emit its aggregate message, `elif`
the declared minus used difference is non-empty emit that one. -/
def checkProcessProtocolIdsUsage (s : StudyJson) : List UsageDiag :=
  let declared := getStudyProtocolIds s
  let used := protocolIdsUsed s
  if setMinus used declared ≠ [] then [.undeclaredUsed (setMinus used declared)]
  else if setMinus declared used ≠ [] then [.declaredUnused (setMinus declared used)]
  else []

inductive TermSrcDiag where
  | undeclaredUsed (vals : List Json)
  | declaredUnused (vals : List Json)
deriving DecidableEq

/-- The `termSource` values of the annotations found by
`walk_and_get_annotations`, with the empty string filtered out
(line 1263). -/
def termSourcesUsed (root : Json) : List Json :=
  (walkAnns root).filterMap
    (fun o =>
      match o.find "termSource" with
      | some v => if v = Json.str "" then none else some v
      | none => none)

/-- `check_term_source_refs` (lines 1258-1271): same `if/elif` shape over
declared ontology source names versus used term sources. -/
def checkTermSourceRefsUsage (d : Doc) : List TermSrcDiag :=
  let declared := d.ontologySourceReferences.map (fun o => Json.str o.name)
  let used := termSourcesUsed d.toJson
  if setMinusJ used declared ≠ [] then [.undeclaredUsed (setMinusJ used declared)]
  else if setMinusJ declared used ≠ [] then [.declaredUnused (setMinusJ declared used)]
  else []

end IsaJson

namespace IsaJson

/-! ## The validation path: `validate` / `validate_isajson` (lines 636-854) -/

inductive Severity where
  | warning
  | error
  | fatal
deriving DecidableEq

abbrev Diag := Severity × String

/-- The Validation Report: an ordered, append-only list of diagnostics. -/
structure Report where
  diags : List Diag
deriving DecidableEq

def renderJson : Json → String
  | .str s => s
  | .num n => toString n
  | .obj _ => "object"
  | .arr _ => "array"

/-- The input handed to `validate`: `utf8` models the `is_utf8` probe,
`parsed` models `json.load` (`none` is a `ValueError`), `schemaOk` models
the external JSON-schema validator (a black-box predicate per the spec),
and `dirFiles` models the directory listing that `check_data_files`
consults. -/
structure RawInput where
  utf8 : Bool
  parsed : Option Doc
  schemaOk : Bool
  dirFiles : List String
deriving DecidableEq

/-- Modelled from the spec: `check_encoding` from `isatools.validate.utils`
(encoding detection is out of scope) — appends a warning when the stream
does not look UTF-8 encoded and never raises. -/
def checkEncoding (f : RawInput) : List Diag :=
  if f.utf8 then [] else [(Severity.warning, "File encoding does not look like UTF-8")]

/-- `_check_filenames` (lines 647-653). -/
def checkFilenames (d : Doc) : List Diag :=
  (d.studies.map
    (fun s =>
      (if s.filename = "" then [(Severity.warning, "A study filename is missing")] else []) ++
      (s.assays.map
        (fun a =>
          if a.filename = "" then [(Severity.warning, "An assay filename is missing")]
          else ([] : List Diag))).flatten)).flatten

/-- `_check_ontology_sources` (lines 655-662): collect the declared term
source names (seeded with the empty string) and warn about unnamed ones. -/
def checkOntologySources (d : Doc) : List String × List Diag :=
  d.ontologySourceReferences.foldl
    (fun acc o =>
      if o.name = "" then
        (acc.1,
         acc.2 ++ [(Severity.warning,
           "An Ontology Source Reference is missing Term Source Name, so it can not be referenced")])
      else (acc.1 ++ [o.name], acc.2))
    ([""], [])

/-- The per-process part of `_check_date_formats`: the `date` key of each
process is read without a `try`, so a missing key is a `KeyError`
escaping `validate`. -/
def checkProcessDatesE (ps : List ProcJson) : Except String (List (List String)) :=
  ps.mapM
    (fun p =>
      match p.date with
      | none => throw "KeyError: date"
      | some dt => pure (checkIso8601Date dt))

/-- The per-study part of `_check_date_formats`. -/
def checkStudyDatesE (s : StudyJson) : Except String (List String) :=
  match checkProcessDatesE s.processSequence with
  | .error e => .error e
  | .ok pd =>
    .ok (checkIso8601Date s.publicReleaseDate ++
      checkIso8601Date s.submissionDate ++ pd.flatten)

/-- `_check_date_formats` (lines 664-671): investigation dates, then per
study its dates and every process date. -/
def checkDateFormatsE (d : Doc) : Except String (List Diag) :=
  match d.studies.mapM checkStudyDatesE with
  | .error e => .error e
  | .ok rest =>
    .ok (((checkIso8601Date d.publicReleaseDate ++
      checkIso8601Date d.submissionDate) ++ rest.flatten).map
        (fun m => (Severity.warning, m)))

/-- `_check_term_source_refs` (lines 673-685): warn for every
annotation-shaped object whose `termSource` is not among the declared
ontology source names. -/
def checkTermSourceRefsW (root : Json) (refs : List String) : List Diag :=
  (walkAnns root).foldl
    (fun acc o =>
      match o.find "termSource" with
      | some v =>
        if v ∈ refs.map Json.str then acc
        else
          acc ++ [(Severity.warning,
            "Annotation " ++
              (match o.find "annotationValue" with
               | some av => renderJson av
               | none => "") ++
              " references " ++ renderJson v ++
              " term source that has not been declared")]
      | none => acc)
    []

/-- `_check_protocol_names` (lines 701-709). -/
def checkProtocolNamesW (d : Doc) : List Diag :=
  (d.studies.map
    (fun s =>
      (s.protocols.map
        (fun p =>
          if p.name = "" then
            [(Severity.warning,
              "A Protocol is missing Protocol Name, so it can not be referenced in ISA-tab")]
          else ([] : List Diag))).flatten)).flatten

/-- `_check_protocol_parameter_names` (lines 711-720) compares the
`parameterName` JSON *object* to the empty string with `is`, which is
false for every object, so on documents of this shape the check emits
nothing. -/
def checkProtocolParameterNamesW (_ : Doc) : List Diag := []

/-- `_check_study_factor_names` (lines 722-730): `factorName` is a string,
so this comparison is meaningful. -/
def checkStudyFactorNamesW (d : Doc) : List Diag :=
  (d.studies.map
    (fun s =>
      (s.factors.map
        (fun f =>
          if f.factorName = "" then
            [(Severity.warning,
              "A Study Factor is missing Name, so it can not be referenced in ISA-tab")]
          else ([] : List Diag))).flatten)).flatten

/-- `_check_object_usage` (lines 784-787). -/
def checkObjectUsage (sec : String) (objectsDeclared : List String)
    (idRefs : List Json) : List Diag :=
  objectsDeclared.foldl
    (fun acc objRef =>
      if Json.str objRef ∈ idRefs then acc
      else
        acc ++ [(Severity.warning,
          "Object reference " ++ objRef ++ " not used anywhere in " ++ sec)])
    []

/-- The per-study section label (lines 808-810, 818-820). -/
def studySection (i : Nat) (s : StudyJson) : String :=
  if s.identifier ≠ "" then s.identifier
  else
    "study loc " ++ toString (i + 1) ++
      " (study location autocalculated by validator - Study ID in JSON not present)"

/-- Modelled from the spec: `check_data_files` from utils — one warning
per assay data file missing from the directory context, never raising. -/
def checkDataFiles (dirFiles : List String) (d : Doc) : List Diag :=
  (d.studies.map
    (fun s =>
      (s.assays.map
        (fun a =>
          (a.dataFiles.map
            (fun df =>
              if df.name ∈ dirFiles then ([] : List Diag)
              else [(Severity.warning, "Data file " ++ df.name ++ " not found")])).flatten)).flatten)).flatten

/-- Modelled from the spec: the `isajson_load` / `isajson_link_objects`
pair from utils — an alternative loader enabling link checking, emitting
purely additive diagnostics (one per object reference used but never
declared) and never raising. -/
def linkObjectsDiags (d : Doc) : List Diag :=
  (checkObjectRefs d.toJson (collectObjectRefs d.toJson [])).map
    (fun v => (Severity.warning, "Unresolved link " ++ renderJson v))

/-- `validate_isajson` (lines 789-834): the schema check raises on
non-conformance (short-circuiting everything), then every content check
runs in order, appending its diagnostics; only the date check can raise,
via the unguarded access to the `date` key of a process.  The pubmed/DOI checks of the
validation path live in utils and are modelled from the spec with the same
regexes as the in-repo rule 3003/3002 variants. -/
def objectRefsErrors (d : Doc) : List Diag :=
  (checkObjectRefs d.toJson (collectObjectRefs d.toJson [])).map
    (fun v => (Severity.error, "Object reference " ++ renderJson v ++ " not declared anywhere"))

/-- The content checks that follow the schema and date checks, in call
order; every one of them is a pure, purely additive computation. -/
def contentDiags (f : RawInput) (d : Doc) (r3 : List Diag) : List Diag :=
  List.flatten
    [checkFilenames d, (checkOntologySources d).2, r3,
     checkTermSourceRefsW d.toJson (checkOntologySources d).1,
     (checkPubmedIdsFormat d).map (fun m => (Severity.warning, m)),
     (checkDoisList d).map (fun m => (Severity.warning, m)),
     checkProtocolNamesW d, checkProtocolParameterNamesW d,
     checkStudyFactorNamesW d, objectRefsErrors d,
     ((d.studies.enum.map
       (fun p =>
         checkObjectUsage (studySection p.1 p.2) (getStudyProtocolIds p.2)
           (collectIdRefs d.toJson [])))).flatten,
     ((d.studies.enum.map
       (fun p =>
         checkObjectUsage (studySection p.1 p.2) (p.2.factors.map (fun x => x.id))
           (collectIdRefs d.toJson [])))).flatten,
     checkObjectUsage "investigation (term source check)"
       (d.ontologySourceReferences.map (fun o => o.name))
       (collectTermSourceRefs d.toJson []),
     checkDataFiles f.dirFiles d, linkObjectsDiags d]

def validateIsajsonE (f : RawInput) (d : Doc) : Except String (List Diag) :=
  if f.schemaOk = false then
    .error "ValidationError: document does not conform to the investigation schema"
  else
    match checkDateFormatsE d with
    | .error e => .error e
    | .ok r3 => .ok (contentDiags f d r3)

/-- `validate` (lines 837-854): encoding check; a non-UTF-8 input gets a
fatal diagnostic but the report is still returned; a `ValueError` from
`json.load` appends a fatal diagnostic and then re-raises, so the report
never reaches the caller; the schema `ValidationError` (and the date
`KeyError`) likewise propagate. -/
def validateModel (f : RawInput) : Except String Report :=
  if f.utf8 = false then
    .ok ⟨checkEncoding f ++ [(Severity.fatal,
      "File is not UTF-8 encoded, not proceeding with json.load as it will fail")]⟩
  else
    match f.parsed with
    | none => .error "ValueError: There was an error when trying to parse the JSON"
    | some d =>
      match validateIsajsonE f d with
      | .error e => .error e
      | .ok diags => .ok ⟨checkEncoding f ++ diags⟩

end IsaJson

namespace IsaJson

/-! ## Edge characterization of `_build_assay_graph` -/

/-- The two ways the output side of an iteration for `p` can contribute
the edge `x`: a material-flow edge to a non-data-file output, or the
chaining fallback when the output list is empty. -/
def outEdgeFrom (p : ProcessNode) (x : Edge) : Prop :=
  (∃ o, o ∈ p.outputs ∧ o.isDataFile = false ∧ x = (.proc p.pid, .ent o)) ∨
  (p.outputs = [] ∧ ∃ n, p.nextProcess = some n ∧ x = (.proc p.pid, .proc n))

/-- The two ways the input side can contribute `x`: a material-flow edge
from an input (no data-file filter), or the chaining fallback when the
input list is empty. -/
def inEdgeFrom (p : ProcessNode) (x : Edge) : Prop :=
  (∃ i, i ∈ p.inputs ∧ x = (.ent i, .proc p.pid)) ∨
  (p.inputs = [] ∧ ∃ q, p.prevProcess = some q ∧ x = (.proc q, .proc p.pid))

/-- The four ways one loop iteration for process `p` can contribute the
edge `x`. -/
def edgeFromProcess (p : ProcessNode) (x : Edge) : Prop :=
  outEdgeFrom p x ∨ inEdgeFrom p x

theorem mem_addEdge {g : List Edge} {e x : Edge} :
    x ∈ addEdge g e ↔ x ∈ g ∨ x = e := by
  unfold addEdge
  by_cases h : e ∈ g
  · simp only [if_pos h]
    constructor
    · exact fun hx => Or.inl hx
    · rintro (hx | rfl)
      · exact hx
      · exact h
  · simp [if_neg h, List.mem_append]

theorem mem_foldl_addEdge {α : Type} (f : α → Edge) (l : List α) (g : List Edge)
    (x : Edge) :
    x ∈ l.foldl (fun g o => addEdge g (f o)) g ↔ x ∈ g ∨ ∃ o, o ∈ l ∧ x = f o := by
  induction l generalizing g with
  | nil => simp
  | cons hd tl ih =>
    simp only [List.foldl_cons, ih, mem_addEdge, List.mem_cons]
    constructor
    · rintro ((hx | rfl) | ⟨o, ho, rfl⟩)
      · exact Or.inl hx
      · exact Or.inr ⟨hd, Or.inl rfl, rfl⟩
      · exact Or.inr ⟨o, Or.inr ho, rfl⟩
    · rintro (hx | ⟨o, (rfl | ho), rfl⟩)
      · exact Or.inl (Or.inl hx)
      · exact Or.inl (Or.inr rfl)
      · exact Or.inr ⟨o, ho, rfl⟩

theorem mem_out_fold (pid : String) (outs : List Entity) (g : List Edge) (x : Edge) :
    x ∈ (outs.filter (fun n => !n.isDataFile)).foldl
        (fun g o => addEdge g (.proc pid, .ent o)) g ↔
      x ∈ g ∨ ∃ o, o ∈ outs ∧ o.isDataFile = false ∧ x = (.proc pid, .ent o) := by
  rw [mem_foldl_addEdge]
  constructor
  · rintro (hx | ⟨o, ho, rfl⟩)
    · exact Or.inl hx
    · obtain ⟨ho1, ho2⟩ := List.mem_filter.mp ho
      exact Or.inr ⟨o, ho1, by simpa using ho2, rfl⟩
  · rintro (hx | ⟨o, ho, hdf, rfl⟩)
    · exact Or.inl hx
    · exact Or.inr ⟨o, List.mem_filter.mpr ⟨ho, by simpa using hdf⟩, rfl⟩

theorem mem_outputSide {g : List Edge} {p : ProcessNode} {x : Edge} :
    x ∈ outputSide g p ↔ x ∈ g ∨ outEdgeFrom p x := by
  unfold outputSide outEdgeFrom
  rcases houts : p.outputs with _ | ⟨o0, os⟩
  · rcases hnext : p.nextProcess with _ | n <;> simp [hnext, mem_addEdge]
  · simp only [List.isEmpty_cons, Bool.not_false, Bool.or_true]
    simp only [if_true]
    rw [mem_out_fold]
    simp

theorem mem_inputSide {g : List Edge} {p : ProcessNode} {x : Edge} :
    x ∈ inputSide g p ↔ x ∈ g ∨ inEdgeFrom p x := by
  unfold inputSide inEdgeFrom
  rcases hins : p.inputs with _ | ⟨i0, is_⟩
  · rcases hprev : p.prevProcess with _ | q <;> simp [hprev, mem_addEdge]
  · simp only [List.isEmpty_cons, Bool.not_false, Bool.or_true]
    simp only [if_true]
    rw [mem_foldl_addEdge (fun i => ((GNode.ent i, GNode.proc p.pid) : Edge))]
    simp

theorem mem_graphStep {g : List Edge} {p : ProcessNode} {x : Edge} :
    x ∈ graphStep g p ↔ x ∈ g ∨ edgeFromProcess p x := by
  unfold graphStep edgeFromProcess
  rw [mem_inputSide, mem_outputSide]
  tauto

theorem mem_buildAssayGraph_aux (ps : List ProcessNode) (g : List Edge) (x : Edge) :
    x ∈ ps.foldl graphStep g ↔ x ∈ g ∨ ∃ p, p ∈ ps ∧ edgeFromProcess p x := by
  induction ps generalizing g with
  | nil => simp
  | cons hd tl ih =>
    simp only [List.foldl_cons, ih, mem_graphStep, List.mem_cons]
    constructor
    · rintro ((hx | hr) | ⟨p, hp, hr⟩)
      · exact Or.inl hx
      · exact Or.inr ⟨hd, Or.inl rfl, hr⟩
      · exact Or.inr ⟨p, Or.inr hp, hr⟩
    · rintro (hx | ⟨p, (rfl | hp), hr⟩)
      · exact Or.inl (Or.inl hx)
      · exact Or.inl (Or.inr hr)
      · exact Or.inr ⟨p, hp, hr⟩

theorem mem_buildAssayGraph {ps : List ProcessNode} {x : Edge} :
    x ∈ buildAssayGraph ps ↔ ∃ p, p ∈ ps ∧ edgeFromProcess p x := by
  unfold buildAssayGraph
  simpa using mem_buildAssayGraph_aux ps [] x

end IsaJson

namespace IsaJson

/-! ## Claim C1 and C4 concrete inputs -/

def chainSample : Entity := .sample "#sample/S2" "S2"

/-- A process with a non-empty output list and also a defined next
process. -/
def chainP1 : ProcessNode :=
  ⟨"#process/P1", [], [chainSample], none, some "#process/P2"⟩

/-- The next process: no inputs, linked back to `chainP1`. -/
def chainP2 : ProcessNode :=
  ⟨"#process/P2", [], [], some "#process/P1", none⟩

/-- C1, counterexample.  The claim says the provenance graph contains no
edge process→next-process when the output list is non-empty; but with
`chainP1` having output `S2` and next process `P2`, and `P2` having no
inputs and previous process `P1`, the input-side rule of `P2` puts the
edge `P1 → P2` into the graph anyway. -/
theorem c1_counterexample :
    chainP1.outputs ≠ [] ∧ chainP1.nextProcess = some "#process/P2" ∧
    (GNode.proc "#process/P1", GNode.proc "#process/P2") ∈
      buildAssayGraph [chainP1, chainP2] := by
  decide

/-- C1, amended.  For each process with a non-empty output list, the graph
contains one edge process→output for every output that is not a data
file, and that process contributes no chaining edge of its own: an edge
process→next-process can be present only because some process of the
sequence yields it by the chaining rules — either a process with the same
id, an empty output list and that next-process, or the next process
itself having an empty input list and this process as its previous
process.  The chaining edge is contributed by a process exactly when its
output list is empty and a next-process is defined (symmetrically for
inputs/previous-process). -/
theorem c1_outputs_override_chaining (ps : List ProcessNode) (p : ProcessNode)
    (hp : p ∈ ps) (_hout : p.outputs ≠ []) :
    (∀ o, o ∈ p.outputs → o.isDataFile = false →
      (GNode.proc p.pid, GNode.ent o) ∈ buildAssayGraph ps) ∧
    (∀ n, (GNode.proc p.pid, GNode.proc n) ∈ buildAssayGraph ps →
      ∃ q, q ∈ ps ∧
        ((q.outputs = [] ∧ q.nextProcess = some n ∧ q.pid = p.pid) ∨
         (q.inputs = [] ∧ q.prevProcess = some p.pid ∧ q.pid = n))) := by
  constructor
  · intro o ho hdf
    exact mem_buildAssayGraph.mpr ⟨p, hp, Or.inl (Or.inl ⟨o, ho, hdf, rfl⟩)⟩
  · intro n hmem
    obtain ⟨q, hq, hrule⟩ := mem_buildAssayGraph.mp hmem
    rcases hrule with (⟨o, _, _, hx⟩ | ⟨hq0, m, hm, hx⟩) | (⟨i, _, hx⟩ | ⟨hq0, r, hr, hx⟩)
    · simp [Prod.ext_iff] at hx
    · simp [Prod.ext_iff] at hx
      exact ⟨q, hq, Or.inl ⟨hq0, by rw [hm, hx.2], hx.1.symm⟩⟩
    · simp [Prod.ext_iff] at hx
    · simp [Prod.ext_iff] at hx
      exact ⟨q, hq, Or.inr ⟨hq0, by rw [hr, hx.1], hx.2.symm⟩⟩

/-- C1, witness for the amended theorem at the concrete two-process
sequence. -/
theorem c1_witness :
    ((∀ o, o ∈ chainP1.outputs → o.isDataFile = false →
      (GNode.proc chainP1.pid, GNode.ent o) ∈ buildAssayGraph [chainP1, chainP2]) ∧
    (∀ n, (GNode.proc chainP1.pid, GNode.proc n) ∈ buildAssayGraph [chainP1, chainP2] →
      ∃ q, q ∈ [chainP1, chainP2] ∧
        ((q.outputs = [] ∧ q.nextProcess = some n ∧ q.pid = chainP1.pid) ∨
         (q.inputs = [] ∧ q.prevProcess = some chainP1.pid ∧ q.pid = n)))) :=
  c1_outputs_override_chaining [chainP1, chainP2] chainP1 (by decide) (by decide)

def dfEntity : Entity := .dataFile "#data/D1" "file.txt" "Raw Data File"

/-- A process whose only input is a data file. -/
def dfProc : ProcessNode := ⟨"#process/P3", [dfEntity], [], none, none⟩

/-- C4, counterexample.  The claim says no edge is added from a data-file
input to its process and that a data file never appears as a node; but
the input-side rule has no data-file filter, so a data-file input yields
the edge input→process and the data file is a node of the graph. -/
theorem c4_counterexample :
    dfEntity.isDataFile = true ∧
    (GNode.ent dfEntity, GNode.proc "#process/P3") ∈ buildAssayGraph [dfProc] := by
  decide

/-- C4, amended.  Data files are excluded from the flow graph on the
output side only: no edge of any provenance graph ever points from a
process to a data-file entity (so a data file is never the target of a
process edge), but an input that is a data file does get an edge
input→process, as the counterexample shows. -/
theorem c4_no_process_to_data_file_edge (ps : List ProcessNode) (pid : String)
    (d : Entity) (hmem : (GNode.proc pid, GNode.ent d) ∈ buildAssayGraph ps) :
    d.isDataFile = false := by
  obtain ⟨q, hq, hrule⟩ := mem_buildAssayGraph.mp hmem
  rcases hrule with (⟨o, _, hdf, hx⟩ | ⟨_, m, _, hx⟩) | (⟨i, _, hx⟩ | ⟨_, r, _, hx⟩) <;>
    simp [Prod.ext_iff] at hx
  rw [hx.2]
  exact hdf

/-- C4, witness: the amended theorem applied at a concrete graph edge. -/
theorem c4_witness : chainSample.isDataFile = false :=
  c4_no_process_to_data_file_edge [chainP1, chainP2] "#process/P1" chainSample (by decide)

end IsaJson

namespace IsaJson

/-! ## Claim C9: the PubMed-ID format check -/

/-- The acceptance rule exactly as the claim words it: an 8-digit numeric
ID, or PMC followed by exactly eight digits. -/
def pubmedExactOk (v : String) : Bool :=
  (v.data.length = 8 && v.data.all Char.isDigit) ||
  (v.data.length = 11 && listStartsWith v.data "PMC".data &&
    (v.data.drop 3).all Char.isDigit)

/-- The acceptance rule the code implements: a *prefix* of eight digits,
or the PMC tag followed by a *prefix* of eight digits, with anything after
the matched prefix unconstrained. -/
def pubmedPrefixAccepted (v : String) : Bool :=
  (8 ≤ v.data.length && (v.data.take 8).all Char.isDigit) ||
  (listStartsWith v.data "PMC".data && 8 ≤ (v.data.drop 3).length &&
    ((v.data.drop 3).take 8).all Char.isDigit)

def pubmedWarnMsg (v : String) : String :=
  "PubMed ID " ++ v ++ " is not valid format"

def pub9 (pm : String) : PublicationJson :=
  ⟨pm, "", "", "", ⟨none, "", "", ""⟩, none⟩

def doc9 (pm : String) : Doc :=
  { identifier := "I1", title := "", description := "",
    submissionDate := "", publicReleaseDate := "", comments := [],
    ontologySourceReferences := [], publications := [pub9 pm], people := [],
    studies := [] }

/-- C9, counterexample.  The claim says the check accepts exactly the
8-digit or PMC-plus-8-digit IDs and warns on any other non-empty value;
but `123456789` (nine digits) is not such an ID, yet the check emits no
warning for a document carrying it, because `re.match` only anchors at the
start.  The seven-digit `PMC1234567` of the claim scenario does get
exactly one warning. -/
theorem c9_counterexample :
    pubmedExactOk "123456789" = false ∧ "123456789" ≠ "" ∧
    checkPubmedIdsFormat (doc9 "123456789") = [] ∧
    checkPubmedIdsFormat (doc9 "PMC1234567") =
      ["PubMed ID PMC1234567 is not valid format"] := by
  decide

theorem checkPubmedList (ids : List String) :
    (ids.map checkPubmedId).flatten =
      (ids.filter (fun v => v ≠ "" && !pubmedPrefixAccepted v)).map pubmedWarnMsg := by
  induction ids with
  | nil => rfl
  | cons h t ih =>
    have hone : checkPubmedId h =
        if (h ≠ "" && !pubmedPrefixAccepted h) = true then [pubmedWarnMsg h] else [] := by
      unfold checkPubmedId pubmedPrefixAccepted pmidRegexMatch pmcidRegexMatch pubmedWarnMsg
      by_cases h1 : h = "" <;> simp [h1]
    simp only [List.map_cons, List.flatten_cons, List.filter_cons, hone, ih]
    by_cases hc : (h ≠ "" && !pubmedPrefixAccepted h) = true
    · rw [if_pos hc, if_pos hc, List.map_cons, List.singleton_append]
    · rw [if_neg hc, if_neg hc, List.nil_append]

/-- C9, amended.  The check skips empty strings and otherwise emits, in
traversal order (investigation publications then study publications),
exactly one warning naming each PubMed ID value that neither starts with
eight digits nor starts with PMC followed by eight digits — a prefix
match, not a full match, so e.g. nine-digit values are accepted. -/
theorem c9_pubmed_format_prefix_semantics (d : Doc) :
    checkPubmedIdsFormat d =
      ((d.publications.map (fun p => p.pubMedID)).filter
        (fun v => v ≠ "" && !pubmedPrefixAccepted v)).map pubmedWarnMsg ++
      ((d.studies.map
        (fun s =>
          ((s.publications.map (fun p => p.pubMedID)).filter
            (fun v => v ≠ "" && !pubmedPrefixAccepted v)).map pubmedWarnMsg)).flatten) := by
  unfold checkPubmedIdsFormat
  rw [show (d.publications.map (fun p => checkPubmedId p.pubMedID)) =
      ((d.publications.map (fun p => p.pubMedID)).map checkPubmedId) by
    simp [List.map_map]]
  rw [checkPubmedList]
  congr 1
  congr 1
  apply List.map_congr_left
  intro s _
  rw [show (s.publications.map (fun p => checkPubmedId p.pubMedID)) =
      ((s.publications.map (fun p => p.pubMedID)).map checkPubmedId) by
    simp [List.map_map]]
  rw [checkPubmedList]

end IsaJson

namespace IsaJson

/-! ## Claim C2: the declared/used reconciliation checks -/

def c2noAnn : AnnJson := ⟨none, "", "", ""⟩

/-- A study declaring protocol p1 whose only process executes the
undeclared protocol p2: both set differences are non-empty. -/
def c2study : StudyJson :=
  { identifier := "S1", title := "", description := "",
    submissionDate := "", publicReleaseDate := "", filename := "s_file.txt",
    comments := none,
    characteristicCategories := [], unitCategories := [],
    publications := [], people := [], studyDesignDescriptors := [],
    protocols := [⟨"#protocol/p1", "growth", "", "", "", c2noAnn, [], []⟩],
    factors := [],
    materials := ⟨[], []⟩,
    processSequence :=
      [⟨"#process/P1", some "#protocol/p2", none, none, none, none, [], [], [],
        none, none⟩],
    assays := [] }

/-- C2, counterexample.  The claim says the two directions are computed
and emitted independently, one diagnostic per element; on `c2study` both
`used − declared` and `declared − used` are non-empty singletons, yet the
check emits exactly one aggregate diagnostic, for the `used − declared`
direction only — the `elif` suppresses the other direction. -/
theorem c2_counterexample :
    setMinus (protocolIdsUsed c2study) (getStudyProtocolIds c2study) =
      ["#protocol/p2"] ∧
    setMinus (getStudyProtocolIds c2study) (protocolIdsUsed c2study) =
      ["#protocol/p1"] ∧
    checkProcessProtocolIdsUsage c2study =
      [.undeclaredUsed ["#protocol/p2"]] := by
  decide

/-- C2, amended.  For the protocol-usage and term-source checks: the check
is silent exactly when both differences are empty; a single aggregate
`used − declared` diagnostic is emitted exactly when that difference is
non-empty; and a `declared − used` diagnostic is emitted exactly when
`used − declared` is empty and `declared − used` is not — so the warning
direction is suppressed whenever the error direction fires, and each
direction produces one aggregate message listing its elements rather than
one message per element. -/
theorem c2_usage_checks_suppress_warnings (s : StudyJson) (d : Doc) :
    (checkProcessProtocolIdsUsage s = [] ↔
      setMinus (protocolIdsUsed s) (getStudyProtocolIds s) = [] ∧
      setMinus (getStudyProtocolIds s) (protocolIdsUsed s) = []) ∧
    ((∃ ids, UsageDiag.declaredUnused ids ∈ checkProcessProtocolIdsUsage s) ↔
      (setMinus (protocolIdsUsed s) (getStudyProtocolIds s) = [] ∧
       setMinus (getStudyProtocolIds s) (protocolIdsUsed s) ≠ [])) ∧
    ((∃ ids, UsageDiag.undeclaredUsed ids ∈ checkProcessProtocolIdsUsage s) ↔
      setMinus (protocolIdsUsed s) (getStudyProtocolIds s) ≠ []) ∧
    (checkTermSourceRefsUsage d = [] ↔
      setMinusJ (termSourcesUsed d.toJson)
        (d.ontologySourceReferences.map (fun o => Json.str o.name)) = [] ∧
      setMinusJ (d.ontologySourceReferences.map (fun o => Json.str o.name))
        (termSourcesUsed d.toJson) = []) ∧
    ((∃ vs, TermSrcDiag.declaredUnused vs ∈ checkTermSourceRefsUsage d) ↔
      (setMinusJ (termSourcesUsed d.toJson)
        (d.ontologySourceReferences.map (fun o => Json.str o.name)) = [] ∧
       setMinusJ (d.ontologySourceReferences.map (fun o => Json.str o.name))
        (termSourcesUsed d.toJson) ≠ [])) ∧
    ((∃ vs, TermSrcDiag.undeclaredUsed vs ∈ checkTermSourceRefsUsage d) ↔
      setMinusJ (termSourcesUsed d.toJson)
        (d.ontologySourceReferences.map (fun o => Json.str o.name)) ≠ []) := by
  unfold checkProcessProtocolIdsUsage checkTermSourceRefsUsage
  by_cases h1 : setMinus (protocolIdsUsed s) (getStudyProtocolIds s) = [] <;>
    by_cases h2 : setMinus (getStudyProtocolIds s) (protocolIdsUsed s) = [] <;>
      by_cases h3 : setMinusJ (termSourcesUsed d.toJson)
        (d.ontologySourceReferences.map (fun o => Json.str o.name)) = [] <;>
        by_cases h4 : setMinusJ (d.ontologySourceReferences.map (fun o => Json.str o.name))
          (termSourcesUsed d.toJson) = [] <;>
          simp [h1, h2, h3, h4]

end IsaJson

namespace IsaJson

/-! ## Claim C8: sentinel exclusion in `_check_object_refs` -/

mutual

theorem walkNoAdr : ∀ (j : Json) (refs : List Json),
    arrayDesignRef ∉ checkObjectRefs j refs
  | .str _, refs => by simp [checkObjectRefs]
  | .num _, refs => by simp [checkObjectRefs]
  | .arr a, refs => by
    simpa [checkObjectRefs] using walkNoAdrArr a refs
  | .obj o, refs => by
    unfold checkObjectRefs
    intro hmem
    rcases List.mem_append.mp hmem with hhere | hrec
    · rcases hv : idValue o with _ | v
      · simp [hv] at hhere
      · simp only [hv] at hhere
        by_cases hc : (isBareRefShape o && v ∉ refs && v ≠ arrayDesignRef) = true
        · rw [if_pos hc] at hhere
          have hne : v ≠ arrayDesignRef := by
            have h2 := hc
            simp only [Bool.and_eq_true, decide_eq_true_eq] at h2
            exact h2.2
          simp at hhere
          exact hne (by rw [hhere])
        · rw [if_neg hc] at hhere
          simp at hhere
    · exact walkNoAdrObj o refs hrec

theorem walkNoAdrObj : ∀ (o : JObj) (refs : List Json),
    arrayDesignRef ∉ checkObjectRefsO o refs
  | .nil, refs => by simp [checkObjectRefsO]
  | .cons k v r, refs => by
    unfold checkObjectRefsO
    intro hmem
    rcases List.mem_append.mp hmem with h1 | h2
    · exact walkNoAdr v refs h1
    · exact walkNoAdrObj r refs h2

theorem walkNoAdrArr : ∀ (a : JArr) (refs : List Json),
    arrayDesignRef ∉ checkObjectRefsA a refs
  | .nil, refs => by simp [checkObjectRefsA]
  | .cons v r, refs => by
    unfold checkObjectRefsA
    intro hmem
    rcases List.mem_append.mp hmem with h1 | h2
    · exact walkNoAdr v refs h1
    · exact walkNoAdrArr r refs h2

end

/-- A document whose only reference is a bare empty-string usage, declared
nowhere. -/
def c8doc : Json :=
  Json.obj (JObj.cons "studies"
    (Json.arr (JArr.cons (bareRef "") JArr.nil)) JObj.nil)

/-- C8, counterexample.  The claim says the empty-string sentinel is also
excluded from the used-minus-declared errors; but on a document with a
bare empty-string reference declared nowhere, `_check_object_refs` emits
exactly one error naming the empty string — only the literal
`#parameter/Array_Design_REF` is excluded. -/
theorem c8_counterexample :
    collectObjectRefs c8doc [] = [] ∧
    checkObjectRefs c8doc (collectObjectRefs c8doc []) = [Json.str ""] := by
  decide

/-- C8, amended.  During the whole-tree walk, no error is ever emitted for
the reserved identifier `#parameter/Array_Design_REF`, whatever the
declarations; every other bare `@id` usage (the empty string included)
that is neither declared nor the reserved identifier is reported. -/
theorem c8_only_array_design_ref_excluded :
    (∀ (j : Json) (refs : List Json), arrayDesignRef ∉ checkObjectRefs j refs) ∧
    (∀ (o : JObj) (refs : List Json) (v : Json),
      idValue o = some v → isBareRefShape o = true → v ∉ refs →
      v ≠ arrayDesignRef → v ∈ checkObjectRefs (.obj o) refs) := by
  constructor
  · exact fun j refs => walkNoAdr j refs
  · intro o refs v hv hshape hnotin hne
    unfold checkObjectRefs
    rw [hv]
    simp [hshape, hnotin, hne]

/-- C8, witness: the amended theorem applied at the reserved identifier
and at a concrete undeclared bare empty-string usage. -/
theorem c8_witness :
    arrayDesignRef ∉ checkObjectRefs (bareRef "#parameter/Array_Design_REF") [] ∧
    Json.str "" ∈ checkObjectRefs (bareRef "") [] :=
  ⟨c8_only_array_design_ref_excluded.1 (bareRef "#parameter/Array_Design_REF") [],
   c8_only_array_design_ref_excluded.2 (JObj.cons "@id" (Json.str "") JObj.nil) []
     (Json.str "") (by decide) (by decide) (by decide) (by decide)⟩

end IsaJson

namespace IsaJson

/-! ## Claims C5 and C6: process input/output resolution -/

deriving instance DecidableEq for Except

/-- The resolver C5 describes: one walk over all four registries in the
fixed order sources, samples, materials, data files, where the
latest-walked registry containing the identifier wins. -/
def claimedLastMatch (sources samples materials data : Registry)
    (id : String) : Option Entity :=
  match alookup data id with
  | some e => some e
  | none =>
    match alookup materials id with
    | some e => some e
    | none =>
      match alookup samples id with
      | some e => some e
      | none => alookup sources id

/-- Last-match lookup over a walk order given as a list of registries. -/
def lastMatch (regs : List Registry) (id : String) : Option Entity :=
  regs.foldl
    (fun acc r =>
      match alookup r id with
      | some e => some e
      | none => acc)
    none

def annEmpty : AnnJson := ⟨none, "", "", ""⟩

/-- An assay declaring the data file `#x` — the same identifier as the
sample declared at study level. -/
def c5assay : AssayJson :=
  { measurementType := annEmpty, technologyType := annEmpty,
    technologyPlatform := "", filename := "a_file.txt",
    unitCategories := [],
    dataFiles := [⟨"#x", "file1.txt", "Raw Data File", none⟩],
    materials := ⟨[], []⟩, characteristicCategories := [],
    processSequence := [] }

/-- A study whose sample registry and (via its assay) data-file registry
both contain `#x`, and whose process consumes `#x` as an input. -/
def c5study : StudyJson :=
  { identifier := "S1", title := "", description := "",
    submissionDate := "", publicReleaseDate := "", filename := "s_file.txt",
    comments := none,
    characteristicCategories := [], unitCategories := [],
    publications := [], people := [], studyDesignDescriptors := [],
    protocols := [⟨"#protocol/p1", "growth", "", "", "", annEmpty, [], []⟩],
    factors := [],
    materials := ⟨[], [⟨"#x", "sample-X", [], [], []⟩]⟩,
    processSequence :=
      [⟨"#process/P1", some "#protocol/p1", none, none, none, none, [],
        ["#x"], [], none, none⟩],
    assays := [c5assay] }

def c5doc : Doc :=
  { identifier := "I1", title := "", description := "",
    submissionDate := "", publicReleaseDate := "", comments := [],
    ontologySourceReferences := [], publications := [], people := [],
    studies := [c5study] }

/-- The registries and resolved process objects `load` produces on
`c5doc`. -/
def c5state : LState :=
  { termSources := [""], categories := [], units := [],
    protocols := [("#protocol/p1", "")], parameters := [], factors := [],
    sources := [], samples := [("#x", .sample "#x" "X")],
    processes := ["#process/P1"],
    otherMaterialsAll := [],
    dataFilesAll := [("#x", .dataFile "#x" "file1.txt" "Raw Data File")],
    procObjs := [⟨"#process/P1", [.sample "#x" "X"], []⟩] }

/-- C5, counterexample.  The identifier `#x` is present in two of the four
registries (samples and data files); the claimed walk over all four
registries would append the data-file entity (the latest-walked hit), but
the study-level resolver only walks sources then samples and appends the
sample entity. -/
theorem c5_counterexample :
    loadModel c5doc = .ok c5state ∧
    c5state.procObjs = [⟨"#process/P1", [Entity.sample "#x" "X"], []⟩] ∧
    alookup c5state.samples "#x" = some (Entity.sample "#x" "X") ∧
    alookup c5state.dataFilesAll "#x" =
      some (Entity.dataFile "#x" "file1.txt" "Raw Data File") ∧
    claimedLastMatch c5state.sources c5state.samples c5state.otherMaterialsAll
        c5state.dataFilesAll "#x" =
      some (Entity.dataFile "#x" "file1.txt" "Raw Data File") ∧
    Entity.sample "#x" "X" ≠ Entity.dataFile "#x" "file1.txt" "Raw Data File" := by
  decide

/-- C5, amended.  Resolution is split between two partial resolvers, each
taking the last match over the registries it actually walks: the
study-level resolver walks sources then samples, the assay-level resolver
walks samples, then the per-assay other materials, then the per-assay
data files; neither walks all four registries. -/
theorem c5_resolution_is_split_last_match
    (sources samples materials data : Registry) (id : String) :
    resolveStudyNode sources samples id = lastMatch [sources, samples] id ∧
    resolveAssayNode samples materials data id =
      lastMatch [samples, materials, data] id := by
  constructor
  · unfold resolveStudyNode lastMatch
    cases h1 : alookup sources id <;> cases h2 : alookup samples id <;>
      simp [h1, h2, List.foldl]
  · unfold resolveAssayNode lastMatch
    cases h1 : alookup samples id <;> cases h2 : alookup materials id <;>
      cases h3 : alookup data id <;> simp [h1, h2, h3, List.foldl]

/-! ### C6: the unresolved-io error -/

/-- Substring occurrence on character lists. -/
def fragIn (needle : List Char) : List Char → Bool
  | [] => listStartsWith [] needle
  | c :: t => listStartsWith (c :: t) needle || fragIn needle t

/-- Substring occurrence on strings: does `hay` contain `needle`. -/
def strContains (hay needle : String) : Bool := fragIn needle.data hay.data

theorem listStartsWith_append (l ext : List Char) :
    listStartsWith (l ++ ext) l = true := by
  induction l with
  | nil => cases ext <;> rfl
  | cons c t ih => simp [listStartsWith, ih]

theorem fragIn_suffix (pre needle : List Char) :
    fragIn needle (pre ++ needle) = true := by
  induction pre with
  | nil =>
    cases hn : needle with
    | nil => rfl
    | cons c t =>
      have h := listStartsWith_append (c :: t) []
      rw [List.append_nil] at h
      simp [fragIn, h]
  | cons p ps ih => simp [fragIn, ih]

theorem strContains_append (p s : String) : strContains (p ++ s) s = true := by
  unfold strContains
  have hd : (p ++ s).data = p.data ++ s.data := rfl
  rw [hd]
  exact fragIn_suffix p.data s.data

theorem resolveStudyInputs_error (sources samples : Registry) :
    ∀ (ids : List String) (m : String),
    resolveStudyInputs sources samples ids = .error m →
    ∃ id, id ∈ ids ∧ resolveStudyNode sources samples id = none ∧
      m = studyInputErrMsg id
  | [], m => by simp [resolveStudyInputs]
  | id :: rest, m => by
    unfold resolveStudyInputs
    cases hr : resolveStudyNode sources samples id with
    | none =>
      intro h
      simp only [Except.error.injEq] at h
      exact ⟨id, List.mem_cons_self id rest, hr, h.symm⟩
    | some e =>
      cases hrest : resolveStudyInputs sources samples rest with
      | error m2 =>
        intro h
        simp only [hrest, Except.map, Except.error.injEq] at h
        obtain ⟨i2, hi2, hn2, hm2⟩ :=
          resolveStudyInputs_error sources samples rest m2 hrest
        exact ⟨i2, List.mem_cons_of_mem id hi2, hn2, h ▸ hm2⟩
      | ok es =>
        intro h
        simp only [hrest, Except.map] at h
        exact (Except.noConfusion h)

theorem resolveStudyOutputs_error (sources samples : Registry) :
    ∀ (ids : List String) (m : String),
    resolveStudyOutputs sources samples ids = .error m →
    ∃ id, id ∈ ids ∧ resolveStudyNode sources samples id = none ∧
      m = studyOutputErrMsg id
  | [], m => by simp [resolveStudyOutputs]
  | id :: rest, m => by
    unfold resolveStudyOutputs
    cases hr : resolveStudyNode sources samples id with
    | none =>
      intro h
      simp only [Except.error.injEq] at h
      exact ⟨id, List.mem_cons_self id rest, hr, h.symm⟩
    | some e =>
      cases hrest : resolveStudyOutputs sources samples rest with
      | error m2 =>
        intro h
        simp only [hrest, Except.map, Except.error.injEq] at h
        obtain ⟨i2, hi2, hn2, hm2⟩ :=
          resolveStudyOutputs_error sources samples rest m2 hrest
        exact ⟨i2, List.mem_cons_of_mem id hi2, hn2, h ▸ hm2⟩
      | ok es =>
        intro h
        simp only [hrest, Except.map] at h
        exact (Except.noConfusion h)

theorem resolveAssayInputs_error (samples materials data : Registry) :
    ∀ (ids : List String) (m : String),
    resolveAssayInputs samples materials data ids = .error m →
    ∃ id, id ∈ ids ∧ resolveAssayNode samples materials data id = none ∧
      m = assayInputErrMsg id
  | [], m => by simp [resolveAssayInputs]
  | id :: rest, m => by
    unfold resolveAssayInputs
    cases hr : resolveAssayNode samples materials data id with
    | none =>
      intro h
      simp only [Except.error.injEq] at h
      exact ⟨id, List.mem_cons_self id rest, hr, h.symm⟩
    | some e =>
      cases hrest : resolveAssayInputs samples materials data rest with
      | error m2 =>
        intro h
        simp only [hrest, Except.map, Except.error.injEq] at h
        obtain ⟨i2, hi2, hn2, hm2⟩ :=
          resolveAssayInputs_error samples materials data rest m2 hrest
        exact ⟨i2, List.mem_cons_of_mem id hi2, hn2, h ▸ hm2⟩
      | ok es =>
        intro h
        simp only [hrest, Except.map] at h
        exact (Except.noConfusion h)

theorem resolveAssayOutputs_error (samples materials data : Registry) :
    ∀ (ids : List String) (m : String),
    resolveAssayOutputs samples materials data ids = .error m →
    ∃ id, id ∈ ids ∧ resolveAssayNode samples materials data id = none ∧
      m = assayOutputErrMsg id
  | [], m => by simp [resolveAssayOutputs]
  | id :: rest, m => by
    unfold resolveAssayOutputs
    cases hr : resolveAssayNode samples materials data id with
    | none =>
      intro h
      simp only [Except.error.injEq] at h
      exact ⟨id, List.mem_cons_self id rest, hr, h.symm⟩
    | some e =>
      cases hrest : resolveAssayOutputs samples materials data rest with
      | error m2 =>
        intro h
        simp only [hrest, Except.map, Except.error.injEq] at h
        obtain ⟨i2, hi2, hn2, hm2⟩ :=
          resolveAssayOutputs_error samples materials data rest m2 hrest
        exact ⟨i2, List.mem_cons_of_mem id hi2, hn2, h ▸ hm2⟩
      | ok es =>
        intro h
        simp only [hrest, Except.map] at h
        exact (Except.noConfusion h)

/-- The C6 study: its only process references the undeclared input
`#missing`. -/
def c6study : StudyJson :=
  { c5study with
    materials := ⟨[], []⟩,
    assays := [],
    processSequence :=
      [⟨"#process/P1", some "#protocol/p1", none, none, none, none, [],
        ["#missing"], [], none, none⟩] }

def c6doc : Doc := { c5doc with studies := [c6study] }

/-- C6, counterexample.  Loading `c6doc` aborts with the IOError message;
the message names the missing identifier but does not mention the owning
process `#process/P1`, contradicting the claim that both are named. -/
theorem c6_counterexample :
    loadModel c6doc =
      .error "Could not find input node in sources or samples dicts: #missing" ∧
    strContains "Could not find input node in sources or samples dicts: #missing"
      "#missing" = true ∧
    strContains "Could not find input node in sources or samples dicts: #missing"
      "#process/P1" = false := by
  decide

/-- C6, amended.  When a process input or output identifier resolves in no
candidate registry, resolution fails with the IOError whose message names
the missing identifier (it is a function of that identifier alone, so the
owning process is not named — see the counterexample), and the failure
propagates: `load` returns the error and no object graph is built. -/
theorem c6_unresolved_io_error_names_identifier
    (sources samples materials data : Registry) (ids : List String) (m : String) :
    (resolveStudyInputs sources samples ids = .error m →
      ∃ id, id ∈ ids ∧ resolveStudyNode sources samples id = none ∧
        m = studyInputErrMsg id ∧ strContains m id = true) ∧
    (resolveStudyOutputs sources samples ids = .error m →
      ∃ id, id ∈ ids ∧ resolveStudyNode sources samples id = none ∧
        m = studyOutputErrMsg id ∧ strContains m id = true) ∧
    (resolveAssayInputs samples materials data ids = .error m →
      ∃ id, id ∈ ids ∧ resolveAssayNode samples materials data id = none ∧
        m = assayInputErrMsg id ∧ strContains m id = true) ∧
    (resolveAssayOutputs samples materials data ids = .error m →
      ∃ id, id ∈ ids ∧ resolveAssayNode samples materials data id = none ∧
        m = assayOutputErrMsg id ∧ strContains m id = true) := by
  refine ⟨fun h => ?_, fun h => ?_, fun h => ?_, fun h => ?_⟩
  · obtain ⟨id, hmem, hnone, hm⟩ := resolveStudyInputs_error sources samples ids m h
    exact ⟨id, hmem, hnone, hm, by rw [hm]; exact strContains_append _ id⟩
  · obtain ⟨id, hmem, hnone, hm⟩ := resolveStudyOutputs_error sources samples ids m h
    exact ⟨id, hmem, hnone, hm, by rw [hm]; exact strContains_append _ id⟩
  · obtain ⟨id, hmem, hnone, hm⟩ := resolveAssayInputs_error samples materials data ids m h
    exact ⟨id, hmem, hnone, hm, by rw [hm]; exact strContains_append _ id⟩
  · obtain ⟨id, hmem, hnone, hm⟩ := resolveAssayOutputs_error samples materials data ids m h
    exact ⟨id, hmem, hnone, hm, by rw [hm]; exact strContains_append _ id⟩

/-- C6, witness: the amended theorem applied to a concrete failing
resolution. -/
theorem c6_witness :
    ∃ id, id ∈ ["#missing"] ∧ resolveStudyNode [] [] id = none ∧
      studyInputErrMsg "#missing" = studyInputErrMsg id ∧
      strContains (studyInputErrMsg "#missing") id = true :=
  (c6_unresolved_io_error_names_identifier [] [] [] [] ["#missing"]
    (studyInputErrMsg "#missing")).1 (by decide)

end IsaJson

namespace IsaJson

/-! ## Claim C3: the validation path and its report -/

theorem mapM_ok_of_forall {α β : Type} (f : α → Except String β) :
    ∀ (l : List α), (∀ x, x ∈ l → ∃ y, f x = .ok y) →
    ∃ ys, l.mapM f = .ok ys
  | [], _ => ⟨[], rfl⟩
  | a :: l, h => by
    obtain ⟨y, hy⟩ := h a (List.mem_cons_self a l)
    obtain ⟨ys, hys⟩ := mapM_ok_of_forall f l
      (fun x hx => h x (List.mem_cons_of_mem a hx))
    refine ⟨y :: ys, ?_⟩
    rw [List.mapM_cons, hy, hys]
    rfl

/-- Every process of every study carries a `date` key (the one raw access
of the date check that can raise). -/
def allProcessDatesPresent (d : Doc) : Prop :=
  ∀ s, s ∈ d.studies → ∀ p, p ∈ s.processSequence → p.date ≠ none

theorem checkProcessDatesE_ok (ps : List ProcJson)
    (h : ∀ p, p ∈ ps → p.date ≠ none) :
    ∃ l, checkProcessDatesE ps = .ok l := by
  unfold checkProcessDatesE
  refine mapM_ok_of_forall _ ps (fun p hp => ?_)
  cases hdte : p.date with
  | none => exact absurd hdte (h p hp)
  | some dt => exact ⟨checkIso8601Date dt, rfl⟩

theorem checkStudyDatesE_ok (s : StudyJson)
    (h : ∀ p, p ∈ s.processSequence → p.date ≠ none) :
    ∃ l, checkStudyDatesE s = .ok l := by
  obtain ⟨ps, hps⟩ := checkProcessDatesE_ok s.processSequence h
  unfold checkStudyDatesE
  rw [hps]
  exact ⟨_, rfl⟩

theorem checkDateFormatsE_ok (d : Doc) (h : allProcessDatesPresent d) :
    ∃ r, checkDateFormatsE d = .ok r := by
  obtain ⟨ys, hys⟩ := mapM_ok_of_forall checkStudyDatesE d.studies
    (fun s hs => checkStudyDatesE_ok s (h s hs))
  unfold checkDateFormatsE
  rw [hys]
  exact ⟨_, rfl⟩

/-- C3, counterexample.  The claim says the caller of `validate` always
receives the Report object; but on an input whose bytes are UTF-8 yet do
not parse as JSON, `validate` appends a fatal diagnostic and then
re-raises the `ValueError`, so the caller gets an exception and no
report. -/
theorem c3_counterexample :
    validateModel { utf8 := true, parsed := none, schemaOk := true, dirFiles := [] } =
      .error "ValueError: There was an error when trying to parse the JSON" := rfl

/-- C3, amended.  For every UTF-8 input that parses as JSON, conforms to
the schema and whose processes all carry a `date` key, `validate` returns
the complete report: each individual check failure — malformed date, DOI,
PubMed ID, unresolved object reference, missing data file — only appends
its diagnostics, which all appear in the returned report.  On a JSON
parse failure or schema non-conformance (or a process missing its `date`
key) an exception propagates instead and the caller receives no report. -/
theorem c3_validation_returns_report (f : RawInput) (d : Doc)
    (hu : f.utf8 = true) (hp : f.parsed = some d) (hs : f.schemaOk = true)
    (hd : allProcessDatesPresent d) :
    ∃ rep, validateModel f = .ok rep ∧
      (∀ x, x ∈ (checkPubmedIdsFormat d).map (fun m => (Severity.warning, m)) →
        x ∈ rep.diags) ∧
      (∀ x, x ∈ (checkDoisList d).map (fun m => (Severity.warning, m)) →
        x ∈ rep.diags) ∧
      (∀ x r3, checkDateFormatsE d = .ok r3 → x ∈ r3 → x ∈ rep.diags) ∧
      (∀ x, x ∈ checkTermSourceRefsW d.toJson (checkOntologySources d).1 →
        x ∈ rep.diags) ∧
      (∀ x, x ∈ objectRefsErrors d → x ∈ rep.diags) ∧
      (∀ x, x ∈ checkDataFiles f.dirFiles d → x ∈ rep.diags) := by
  obtain ⟨r3, h3⟩ := checkDateFormatsE_ok d hd
  refine ⟨⟨checkEncoding f ++ contentDiags f d r3⟩, ?_, ?_, ?_, ?_, ?_, ?_, ?_⟩
  · simp [validateModel, validateIsajsonE, hu, hp, hs, h3]
  · intro x hx
    refine List.mem_append_right _ ?_
    simp only [contentDiags]
    exact List.mem_flatten.mpr
      ⟨(checkPubmedIdsFormat d).map (fun m => (Severity.warning, m)), by simp, hx⟩
  · intro x hx
    refine List.mem_append_right _ ?_
    simp only [contentDiags]
    exact List.mem_flatten.mpr
      ⟨(checkDoisList d).map (fun m => (Severity.warning, m)), by simp, hx⟩
  · intro x r3x h3x hx
    rw [h3] at h3x
    simp only [Except.ok.injEq] at h3x
    subst h3x
    refine List.mem_append_right _ ?_
    simp only [contentDiags]
    exact List.mem_flatten.mpr ⟨r3, by simp, hx⟩
  · intro x hx
    refine List.mem_append_right _ ?_
    simp only [contentDiags]
    exact List.mem_flatten.mpr
      ⟨checkTermSourceRefsW d.toJson (checkOntologySources d).1, by simp, hx⟩
  · intro x hx
    refine List.mem_append_right _ ?_
    simp only [contentDiags]
    exact List.mem_flatten.mpr ⟨objectRefsErrors d, by simp, hx⟩
  · intro x hx
    refine List.mem_append_right _ ?_
    simp only [contentDiags]
    exact List.mem_flatten.mpr ⟨checkDataFiles f.dirFiles d, by simp, hx⟩

/-- A document with a malformed investigation date, a malformed PubMed ID
and a malformed DOI. -/
def c3doc : Doc :=
  { identifier := "I1", title := "", description := "",
    submissionDate := "2024-13-40", publicReleaseDate := "", comments := [],
    ontologySourceReferences := [],
    publications := [⟨"PMC1234567", "baddoi", "", "", ⟨none, "", "", ""⟩, none⟩],
    people := [], studies := [] }

def c3input : RawInput :=
  { utf8 := true, parsed := some c3doc, schemaOk := true, dirFiles := [] }

/-- C3, witness: the amended theorem applied at a concrete parsable,
schema-conforming input full of malformed values. -/
theorem c3_witness :
    ∃ rep, validateModel c3input = .ok rep ∧
      (∀ x, x ∈ (checkPubmedIdsFormat c3doc).map (fun m => (Severity.warning, m)) →
        x ∈ rep.diags) ∧
      (∀ x, x ∈ (checkDoisList c3doc).map (fun m => (Severity.warning, m)) →
        x ∈ rep.diags) ∧
      (∀ x r3, checkDateFormatsE c3doc = .ok r3 → x ∈ r3 → x ∈ rep.diags) ∧
      (∀ x, x ∈ checkTermSourceRefsW c3doc.toJson (checkOntologySources c3doc).1 →
        x ∈ rep.diags) ∧
      (∀ x, x ∈ objectRefsErrors c3doc → x ∈ rep.diags) ∧
      (∀ x, x ∈ checkDataFiles c3input.dirFiles c3doc → x ∈ rep.diags) :=
  c3_validation_returns_report c3input c3doc rfl rfl rfl
    (by intro s hs p hp; simp [c3doc] at hs)

end IsaJson

namespace IsaJson

/-! Occurrence of one JSON value inside another. -/

inductive ValIn : Json → JObj → Prop
  | head (k : String) (v : Json) (o : JObj) : ValIn v (JObj.cons k v o)
  | tail (k : String) (w v : Json) (o : JObj) : ValIn v o → ValIn v (JObj.cons k w o)

inductive ElemIn : Json → JArr → Prop
  | head (v : Json) (a : JArr) : ElemIn v (JArr.cons v a)
  | tail (w v : Json) (a : JArr) : ElemIn v a → ElemIn v (JArr.cons w a)

inductive Occurs : Json → Json → Prop
  | refl (j : Json) : Occurs j j
  | inObj {j v : Json} {o : JObj} : Occurs j v → ValIn v o → Occurs j (Json.obj o)
  | inArr {j v : Json} {a : JArr} : Occurs j v → ElemIn v a → Occurs j (Json.arr a)

theorem occurs_trans {a b c : Json} (h1 : Occurs a b) (h2 : Occurs b c) :
    Occurs a c := by
  induction h2 with
  | refl => exact h1
  | inObj _ hv ih => exact Occurs.inObj ih hv
  | inArr _ he ih => exact Occurs.inArr ih he

theorem valIn_ofList {k : String} {v : Json} {l : List (String × Json)}
    (h : (k, v) ∈ l) : ValIn v (JObj.ofList l) := by
  induction l with
  | nil => cases h
  | cons hd tl ih =>
    cases h with
    | head => exact ValIn.head k v (JObj.ofList tl)
    | tail _ hmem => exact ValIn.tail hd.1 hd.2 v (JObj.ofList tl) (ih hmem)

theorem elemIn_ofList {v : Json} {l : List Json} (h : v ∈ l) :
    ElemIn v (JArr.ofList l) := by
  induction l with
  | nil => cases h
  | cons hd tl ih =>
    cases h with
    | head => exact ElemIn.head v (JArr.ofList tl)
    | tail _ hmem => exact ElemIn.tail hd v (JArr.ofList tl) (ih hmem)

/-! Accumulator lemmas for the declaration collector. -/

mutual

theorem collectRetJ : ∀ (j : Json) (acc : List Json) (x : Json),
    x ∈ acc → x ∈ collectObjectRefs j acc
  | .str _, _, _ => fun hx => hx
  | .num _, _, _ => fun hx => hx
  | .arr a, acc, x => fun hx => collectRetA a acc x hx
  | .obj o, acc, x => fun hx => by
    unfold collectObjectRefs
    apply collectRetO o _ x
    rcases idValue o with _ | v
    · exact hx
    · by_cases hc : (isDeclShape o && v ∉ acc) = true
      · simp only [hc, if_true]
        exact List.mem_append_left _ hx
      · simp only [hc, if_false]
        exact hx

theorem collectRetO : ∀ (o : JObj) (acc : List Json) (x : Json),
    x ∈ acc → x ∈ collectObjectRefsO o acc
  | .nil, _, _ => fun hx => hx
  | .cons _ v r, acc, x => fun hx =>
    collectRetO r _ x (collectRetJ v acc x hx)

theorem collectRetA : ∀ (a : JArr) (acc : List Json) (x : Json),
    x ∈ acc → x ∈ collectObjectRefsA a acc
  | .nil, _, _ => fun hx => hx
  | .cons v r, acc, x => fun hx =>
    collectRetA r _ x (collectRetJ v acc x hx)

end

/-- A declaration-shaped object always leaves its id in the collection. -/
theorem collect_decl (o : JObj) (acc : List Json) (v : Json)
    (hv : idValue o = some v) (hshape : isDeclShape o = true) :
    v ∈ collectObjectRefs (Json.obj o) acc := by
  unfold collectObjectRefs
  rw [hv]
  apply collectRetO
  by_cases hin : v ∈ acc
  · by_cases hc : (isDeclShape o && v ∉ acc) = true
    · simp only [hc, if_true]
      exact List.mem_append_left _ hin
    · simp only [hc, if_false]
      exact hin
  · have hc : (isDeclShape o && v ∉ acc) = true := by simp [hshape, hin]
    simp only [hc, if_true]
    exact List.mem_append_right _ (List.mem_singleton.mpr rfl)

end IsaJson

namespace IsaJson

theorem collectStepO {j : Json} {o : JObj} (hval : ValIn j o) {v : Json}
    (hj : ∀ acc, v ∈ collectObjectRefs j acc) :
    ∀ acc, v ∈ collectObjectRefsO o acc := by
  induction hval with
  | head _ _ r =>
    intro acc
    unfold collectObjectRefsO
    exact collectRetO r _ v (hj acc)
  | tail _ w _ r _ ih =>
    intro acc
    unfold collectObjectRefsO
    exact ih hj _

theorem collectStepA {j : Json} {a : JArr} (helem : ElemIn j a) {v : Json}
    (hj : ∀ acc, v ∈ collectObjectRefs j acc) :
    ∀ acc, v ∈ collectObjectRefsA a acc := by
  induction helem with
  | head _ r =>
    intro acc
    unfold collectObjectRefsA
    exact collectRetA r _ v (hj acc)
  | tail w _ r _ ih =>
    intro acc
    unfold collectObjectRefsA
    exact ih hj _

/-- The id of any declaration-shaped object occurring anywhere in the
tree is collected. -/
theorem collect_of_occurs {o : JObj} {root v : Json}
    (hocc : Occurs (Json.obj o) root)
    (hv : idValue o = some v) (hshape : isDeclShape o = true) :
    ∀ acc, v ∈ collectObjectRefs root acc := by
  induction hocc with
  | refl => exact fun acc => collect_decl o acc v hv hshape
  | inObj _ hval ih =>
    intro acc
    unfold collectObjectRefs
    exact collectStepO hval ih _
  | inArr _ helem ih =>
    intro acc
    unfold collectObjectRefs
    exact collectStepA helem ih _

end IsaJson
namespace IsaJson

theorem keys_ofList : ∀ (l : List (String × Json)),
    (JObj.ofList l).keys = l.map Prod.fst
  | [] => rfl
  | (k, v) :: r => by
    unfold JObj.ofList JObj.keys
    rw [keys_ofList r]
    rfl

theorem one_lt_length_dedup {l : List String} {a b : String}
    (ha : a ∈ l) (hb : b ∈ l) (hne : a ≠ b) : 1 < l.dedup.length := by
  have ha2 := List.mem_dedup.mpr ha
  have hb2 := List.mem_dedup.mpr hb
  rcases hd : l.dedup with _ | ⟨x, _ | ⟨y, t2⟩⟩
  · rw [hd] at ha2; cases ha2
  · rw [hd] at ha2 hb2
    simp at ha2 hb2
    exact absurd (ha2.trans hb2.symm) hne
  · simp only [List.length_cons]
    omega

theorem isDeclShape_of_two {o : JObj} (h1 : "@id" ∈ o.keys) {k : String}
    (hk : k ∈ o.keys) (hne : k ≠ "@id") : isDeclShape o = true := by
  unfold isDeclShape
  simp only [Bool.and_eq_true, decide_eq_true_eq]
  exact ⟨by simpa using h1, by simpa using one_lt_length_dedup hk h1 hne⟩

theorem idValue_ofList_head (v : Json) (rest : List (String × Json)) :
    idValue (JObj.ofList (("@id", v) :: rest)) = some v := rfl

/-- The declaring shape of a characteristic category object. -/
theorem shape_charCat (c : CharCatJson) :
    ∃ o, c.toJson = Json.obj o ∧ idValue o = some (.str c.id) ∧
      isDeclShape o = true := by
  refine ⟨_, rfl, rfl, ?_⟩
  refine isDeclShape_of_two ?_ (k := "characteristicType") ?_ (by decide) <;>
    simp [keys_ofList, CharCatJson.toJson]

theorem shape_unit (u : UnitJson) :
    ∃ o, u.toJson = Json.obj o ∧ idValue o = some (.str u.id) ∧
      isDeclShape o = true := by
  refine ⟨_, rfl, rfl, ?_⟩
  refine isDeclShape_of_two ?_ (k := "annotationValue") ?_ (by decide) <;>
    simp [keys_ofList, UnitJson.toJson]

theorem shape_protocol (p : ProtocolJson) :
    ∃ o, p.toJson = Json.obj o ∧ idValue o = some (.str p.id) ∧
      isDeclShape o = true := by
  refine ⟨_, rfl, rfl, ?_⟩
  refine isDeclShape_of_two ?_ (k := "name") ?_ (by decide) <;>
    simp [keys_ofList, ProtocolJson.toJson]

theorem shape_parameter (p : ParameterJson) :
    ∃ o, p.toJson = Json.obj o ∧ idValue o = some (.str p.id) ∧
      isDeclShape o = true := by
  refine ⟨_, rfl, rfl, ?_⟩
  refine isDeclShape_of_two ?_ (k := "parameterName") ?_ (by decide) <;>
    simp [keys_ofList, ParameterJson.toJson]

theorem shape_factor (f : FactorJson) :
    ∃ o, f.toJson = Json.obj o ∧ idValue o = some (.str f.id) ∧
      isDeclShape o = true := by
  refine ⟨_, rfl, rfl, ?_⟩
  refine isDeclShape_of_two ?_ (k := "factorName") ?_ (by decide) <;>
    simp [keys_ofList, FactorJson.toJson]

theorem shape_source (s : SourceJson) :
    ∃ o, s.toJson = Json.obj o ∧ idValue o = some (.str s.id) ∧
      isDeclShape o = true := by
  refine ⟨_, rfl, rfl, ?_⟩
  refine isDeclShape_of_two ?_ (k := "name") ?_ (by decide) <;>
    simp [keys_ofList, SourceJson.toJson]

theorem shape_sample (s : SampleJson) :
    ∃ o, s.toJson = Json.obj o ∧ idValue o = some (.str s.id) ∧
      isDeclShape o = true := by
  refine ⟨_, rfl, rfl, ?_⟩
  refine isDeclShape_of_two ?_ (k := "name") ?_ (by decide) <;>
    simp [keys_ofList, SampleJson.toJson]

theorem shape_proc (p : ProcJson) :
    ∃ o, p.toJson = Json.obj o ∧ idValue o = some (.str p.id) ∧
      isDeclShape o = true := by
  refine ⟨_, rfl, ?_, ?_⟩
  · simp [ProcJson.toJson, idValue, JObj.ofList, JObj.find]
  · refine isDeclShape_of_two ?_ (k := "inputs") ?_ (by decide) <;>
      simp [keys_ofList, ProcJson.toJson, optEntry]
  
theorem shape_dataFile (f : DataFileJson) :
    ∃ o, f.toJson = Json.obj o ∧ idValue o = some (.str f.id) ∧
      isDeclShape o = true := by
  refine ⟨_, rfl, ?_, ?_⟩
  · simp [DataFileJson.toJson, idValue, JObj.ofList, JObj.find]
  · refine isDeclShape_of_two ?_ (k := "name") ?_ (by decide) <;>
      simp [keys_ofList, DataFileJson.toJson, optEntry]

theorem shape_otherMaterial (m : OtherMaterialJson) :
    ∃ o, m.toJson = Json.obj o ∧ idValue o = some (.str m.id) ∧
      isDeclShape o = true := by
  refine ⟨_, rfl, rfl, ?_⟩
  refine isDeclShape_of_two ?_ (k := "name") ?_ (by decide) <;>
    simp [keys_ofList, OtherMaterialJson.toJson]

end IsaJson

namespace IsaJson

theorem occurs_field_val {v : Json} {o : List (String × Json)} {k : String}
    (hk : (k, v) ∈ o) : Occurs v (Json.obj (JObj.ofList o)) :=
  Occurs.inObj (Occurs.refl v) (valIn_ofList hk)

theorem occurs_in_field_arr {α : Type} {x : α} {l : List α} {f : α → Json}
    (hx : x ∈ l) {o : List (String × Json)} {k : String}
    (hk : (k, Json.arr (JArr.ofList (l.map f))) ∈ o) :
    Occurs (f x) (Json.obj (JObj.ofList o)) :=
  Occurs.inObj
    (Occurs.inArr (Occurs.refl _) (elemIn_ofList (List.mem_map_of_mem f hx)))
    (valIn_ofList hk)

theorem occStudy {d : Doc} {s : StudyJson} (hs : s ∈ d.studies) :
    Occurs s.toJson d.toJson := by
  unfold Doc.toJson
  exact occurs_in_field_arr hs (k := "studies") (by simp)

theorem occStudyCharCatLoc {s : StudyJson} {c : CharCatJson}
    (hc : c ∈ s.characteristicCategories) : Occurs c.toJson s.toJson := by
  unfold StudyJson.toJson
  exact occurs_in_field_arr hc (k := "characteristicCategories") (by simp)

theorem occStudyUnitLoc {s : StudyJson} {u : UnitJson}
    (hu : u ∈ s.unitCategories) : Occurs u.toJson s.toJson := by
  unfold StudyJson.toJson
  exact occurs_in_field_arr hu (k := "unitCategories") (by simp)

theorem occProtocolLoc {s : StudyJson} {p : ProtocolJson}
    (hp : p ∈ s.protocols) : Occurs p.toJson s.toJson := by
  unfold StudyJson.toJson
  exact occurs_in_field_arr hp (k := "protocols") (by simp)

theorem occParameterLoc {p : ProtocolJson} {pm : ParameterJson}
    (hpm : pm ∈ p.parameters) : Occurs pm.toJson p.toJson := by
  unfold ProtocolJson.toJson
  exact occurs_in_field_arr hpm (k := "parameters") (by simp)

theorem occFactorLoc {s : StudyJson} {f : FactorJson}
    (hf : f ∈ s.factors) : Occurs f.toJson s.toJson := by
  unfold StudyJson.toJson
  exact occurs_in_field_arr hf (k := "factors") (by simp)

theorem occSourceLoc {s : StudyJson} {src : SourceJson}
    (hsrc : src ∈ s.materials.sources) : Occurs src.toJson s.toJson := by
  refine occurs_trans ?_ (show Occurs s.materials.toJson s.toJson from ?_)
  · unfold StudyMaterialsJson.toJson
    exact occurs_in_field_arr hsrc (k := "sources") (by simp)
  · unfold StudyJson.toJson
    exact occurs_field_val (k := "materials") (by simp)

theorem occSampleLoc {s : StudyJson} {sm : SampleJson}
    (hsm : sm ∈ s.materials.samples) : Occurs sm.toJson s.toJson := by
  refine occurs_trans ?_ (show Occurs s.materials.toJson s.toJson from ?_)
  · unfold StudyMaterialsJson.toJson
    exact occurs_in_field_arr hsm (k := "samples") (by simp)
  · unfold StudyJson.toJson
    exact occurs_field_val (k := "materials") (by simp)

theorem occStudyProcLoc {s : StudyJson} {p : ProcJson}
    (hp : p ∈ s.processSequence) : Occurs p.toJson s.toJson := by
  unfold StudyJson.toJson
  exact occurs_in_field_arr hp (k := "processSequence") (by simp)

theorem occAssayLoc {s : StudyJson} {a : AssayJson}
    (ha : a ∈ s.assays) : Occurs a.toJson s.toJson := by
  unfold StudyJson.toJson
  exact occurs_in_field_arr ha (k := "assays") (by simp)

theorem occAssayUnitLoc {a : AssayJson} {u : UnitJson}
    (hu : u ∈ a.unitCategories) : Occurs u.toJson a.toJson := by
  unfold AssayJson.toJson
  exact occurs_in_field_arr hu (k := "unitCategories") (by simp)

theorem occDataFileLoc {a : AssayJson} {f : DataFileJson}
    (hf : f ∈ a.dataFiles) : Occurs f.toJson a.toJson := by
  unfold AssayJson.toJson
  exact occurs_in_field_arr hf (k := "dataFiles") (by simp)

theorem occAssayCharCatLoc {a : AssayJson} {c : CharCatJson}
    (hc : c ∈ a.characteristicCategories) : Occurs c.toJson a.toJson := by
  unfold AssayJson.toJson
  exact occurs_in_field_arr hc (k := "characteristicCategories") (by simp)

theorem occAssayProcLoc {a : AssayJson} {p : ProcJson}
    (hp : p ∈ a.processSequence) : Occurs p.toJson a.toJson := by
  unfold AssayJson.toJson
  exact occurs_in_field_arr hp (k := "processSequence") (by simp)

theorem occOtherMaterialLoc {a : AssayJson} {m : OtherMaterialJson}
    (hm : m ∈ a.materials.otherMaterials) : Occurs m.toJson a.toJson := by
  refine occurs_trans ?_ (show Occurs a.materials.toJson a.toJson from ?_)
  · unfold AssayMaterialsJson.toJson
    exact occurs_in_field_arr hm (k := "otherMaterials") (by simp)
  · unfold AssayJson.toJson
    exact occurs_field_val (k := "materials") (by simp)

end IsaJson

namespace IsaJson

/-- An identifier declared (as an object with `@id` plus other keys)
somewhere in the raw document. -/
def declaredIn (d : Doc) (id : String) : Prop :=
  Json.str id ∈ collectObjectRefs d.toJson []

theorem foldlM_preserves {σ α : Type} (f : σ → α → Except String σ)
    (P : σ → Prop) :
    ∀ (l : List α), (∀ x, x ∈ l → ∀ s s2, P s → f s x = .ok s2 → P s2) →
    ∀ (st st2 : σ), P st → l.foldlM f st = .ok st2 → P st2
  | [], _, st, st2, hst, h => by
    simp only [List.foldlM_nil] at h
    cases h
    exact hst
  | a :: l, hf, st, st2, hst, h => by
    rw [List.foldlM_cons] at h
    cases hf0 : f st a with
    | error e =>
      rw [hf0] at h
      exact Except.noConfusion h
    | ok s1 =>
      rw [hf0] at h
      exact foldlM_preserves f P l
        (fun x hx => hf x (List.mem_cons_of_mem a hx)) s1 st2
        (hf a (List.mem_cons_self a l) st s1 hst hf0) h

/-- The load invariant: every entry of the four entity registries comes
from a declared source/sample/material/data-file object of the document
(with the built entity), and every identifier in the remaining registries
is declared in the document. -/
def StInv (d : Doc) (st : LState) : Prop :=
  (∀ pr, pr ∈ st.sources →
    ∃ s j, s ∈ d.studies ∧ j ∈ s.materials.sources ∧ pr = (j.id, mkSource j)) ∧
  (∀ pr, pr ∈ st.samples →
    ∃ s j, s ∈ d.studies ∧ j ∈ s.materials.samples ∧ pr = (j.id, mkSample j)) ∧
  (∀ pr, pr ∈ st.otherMaterialsAll →
    ∃ s a j, s ∈ d.studies ∧ a ∈ s.assays ∧ j ∈ a.materials.otherMaterials ∧
      pr = (j.id, mkOtherMaterial j)) ∧
  (∀ pr, pr ∈ st.dataFilesAll →
    ∃ s a j, s ∈ d.studies ∧ a ∈ s.assays ∧ j ∈ a.dataFiles ∧
      pr = (j.id, mkDataFile j)) ∧
  (∀ x, x ∈ st.protocols → declaredIn d x.1) ∧
  (∀ id, id ∈ st.parameters → declaredIn d id) ∧
  (∀ id, id ∈ st.factors → declaredIn d id) ∧
  (∀ id, id ∈ st.categories → declaredIn d id) ∧
  (∀ id, id ∈ st.units → declaredIn d id) ∧
  (∀ id, id ∈ st.processes → declaredIn d id)

theorem StInv_cons_categories {d : Doc} {st : LState} {x : String}
    (h : StInv d st) (hx : declaredIn d x) :
    StInv d { st with categories := x :: st.categories } := by
  obtain ⟨h1, h2, h3, h4, h5, h6, h7, h8, h9, h10⟩ := h
  refine ⟨h1, h2, h3, h4, h5, h6, h7, ?_, h9, h10⟩
  intro id hid
  rcases List.mem_cons.mp hid with rfl | hm
  · exact hx
  · exact h8 id hm

theorem StInv_cons_units {d : Doc} {st : LState} {x : String}
    (h : StInv d st) (hx : declaredIn d x) :
    StInv d { st with units := x :: st.units } := by
  obtain ⟨h1, h2, h3, h4, h5, h6, h7, h8, h9, h10⟩ := h
  refine ⟨h1, h2, h3, h4, h5, h6, h7, h8, ?_, h10⟩
  intro id hid
  rcases List.mem_cons.mp hid with rfl | hm
  · exact hx
  · exact h9 id hm

theorem StInv_cons_factors {d : Doc} {st : LState} {x : String}
    (h : StInv d st) (hx : declaredIn d x) :
    StInv d { st with factors := x :: st.factors } := by
  obtain ⟨h1, h2, h3, h4, h5, h6, h7, h8, h9, h10⟩ := h
  refine ⟨h1, h2, h3, h4, h5, h6, ?_, h8, h9, h10⟩
  intro id hid
  rcases List.mem_cons.mp hid with rfl | hm
  · exact hx
  · exact h7 id hm

theorem StInv_cons_parameters {d : Doc} {st : LState} {x : String}
    (h : StInv d st) (hx : declaredIn d x) :
    StInv d { st with parameters := x :: st.parameters } := by
  obtain ⟨h1, h2, h3, h4, h5, h6, h7, h8, h9, h10⟩ := h
  refine ⟨h1, h2, h3, h4, h5, ?_, h7, h8, h9, h10⟩
  intro id hid
  rcases List.mem_cons.mp hid with rfl | hm
  · exact hx
  · exact h6 id hm

theorem StInv_cons_protocols {d : Doc} {st : LState} {x : String × String}
    (h : StInv d st) (hx : declaredIn d x.1) :
    StInv d { st with protocols := x :: st.protocols } := by
  obtain ⟨h1, h2, h3, h4, h5, h6, h7, h8, h9, h10⟩ := h
  refine ⟨h1, h2, h3, h4, ?_, h6, h7, h8, h9, h10⟩
  intro y hy
  rcases List.mem_cons.mp hy with rfl | hm
  · exact hx
  · exact h5 y hm

theorem StInv_cons_processes {d : Doc} {st : LState} {x : String}
    {po : List ProcessObj} (h : StInv d st) (hx : declaredIn d x) :
    StInv d { st with processes := x :: st.processes, procObjs := po } := by
  obtain ⟨h1, h2, h3, h4, h5, h6, h7, h8, h9, h10⟩ := h
  refine ⟨h1, h2, h3, h4, h5, h6, h7, h8, h9, ?_⟩
  intro id hid
  rcases List.mem_cons.mp hid with rfl | hm
  · exact hx
  · exact h10 id hm

theorem StInv_cons_sources {d : Doc} {st : LState} {s : StudyJson}
    {j : SourceJson} (h : StInv d st) (hs : s ∈ d.studies)
    (hj : j ∈ s.materials.sources) :
    StInv d { st with sources := (j.id, mkSource j) :: st.sources } := by
  obtain ⟨h1, h2, h3, h4, h5, h6, h7, h8, h9, h10⟩ := h
  refine ⟨?_, h2, h3, h4, h5, h6, h7, h8, h9, h10⟩
  intro pr hpr
  rcases List.mem_cons.mp hpr with rfl | hm
  · exact ⟨s, j, hs, hj, rfl⟩
  · exact h1 pr hm

theorem StInv_cons_samples {d : Doc} {st : LState} {s : StudyJson}
    {j : SampleJson} (h : StInv d st) (hs : s ∈ d.studies)
    (hj : j ∈ s.materials.samples) :
    StInv d { st with samples := (j.id, mkSample j) :: st.samples } := by
  obtain ⟨h1, h2, h3, h4, h5, h6, h7, h8, h9, h10⟩ := h
  refine ⟨h1, ?_, h3, h4, h5, h6, h7, h8, h9, h10⟩
  intro pr hpr
  rcases List.mem_cons.mp hpr with rfl | hm
  · exact ⟨s, j, hs, hj, rfl⟩
  · exact h2 pr hm

theorem StInv_append_locals {d : Doc} {st : LState}
    {mats dats : Registry}
    (h : StInv d st)
    (hm : ∀ pr, pr ∈ mats →
      ∃ s a j, s ∈ d.studies ∧ a ∈ s.assays ∧
        j ∈ a.materials.otherMaterials ∧ pr = (j.id, mkOtherMaterial j))
    (hdf : ∀ pr, pr ∈ dats →
      ∃ s a j, s ∈ d.studies ∧ a ∈ s.assays ∧ j ∈ a.dataFiles ∧
        pr = (j.id, mkDataFile j)) :
    StInv d { st with otherMaterialsAll := mats ++ st.otherMaterialsAll,
                      dataFilesAll := dats ++ st.dataFilesAll } := by
  obtain ⟨h1, h2, h3, h4, h5, h6, h7, h8, h9, h10⟩ := h
  refine ⟨h1, h2, ?_, ?_, h5, h6, h7, h8, h9, h10⟩
  · intro pr hpr
    rcases List.mem_append.mp hpr with hl | hr
    · exact hm pr hl
    · exact h3 pr hr
  · intro pr hpr
    rcases List.mem_append.mp hpr with hl | hr
    · exact hdf pr hl
    · exact h4 pr hr

end IsaJson

namespace IsaJson

/-! ### Declaredness of each registered identifier -/

theorem decl_studyCharCat {d : Doc} {s : StudyJson} {c : CharCatJson}
    (hs : s ∈ d.studies) (hc : c ∈ s.characteristicCategories) :
    declaredIn d c.id := by
  obtain ⟨o, htj, hiv, hsh⟩ := shape_charCat c
  have h1 : Occurs c.toJson d.toJson :=
    occurs_trans (occStudyCharCatLoc hc) (occStudy hs)
  rw [htj] at h1
  exact collect_of_occurs h1 hiv hsh []

theorem decl_assayCharCat {d : Doc} {s : StudyJson} {a : AssayJson}
    {c : CharCatJson} (hs : s ∈ d.studies) (ha : a ∈ s.assays)
    (hc : c ∈ a.characteristicCategories) : declaredIn d c.id := by
  obtain ⟨o, htj, hiv, hsh⟩ := shape_charCat c
  have h1 : Occurs c.toJson d.toJson :=
    occurs_trans (occAssayCharCatLoc hc)
      (occurs_trans (occAssayLoc ha) (occStudy hs))
  rw [htj] at h1
  exact collect_of_occurs h1 hiv hsh []

theorem decl_studyUnit {d : Doc} {s : StudyJson} {u : UnitJson}
    (hs : s ∈ d.studies) (hu : u ∈ s.unitCategories) : declaredIn d u.id := by
  obtain ⟨o, htj, hiv, hsh⟩ := shape_unit u
  have h1 : Occurs u.toJson d.toJson :=
    occurs_trans (occStudyUnitLoc hu) (occStudy hs)
  rw [htj] at h1
  exact collect_of_occurs h1 hiv hsh []

theorem decl_assayUnit {d : Doc} {s : StudyJson} {a : AssayJson} {u : UnitJson}
    (hs : s ∈ d.studies) (ha : a ∈ s.assays) (hu : u ∈ a.unitCategories) :
    declaredIn d u.id := by
  obtain ⟨o, htj, hiv, hsh⟩ := shape_unit u
  have h1 : Occurs u.toJson d.toJson :=
    occurs_trans (occAssayUnitLoc hu)
      (occurs_trans (occAssayLoc ha) (occStudy hs))
  rw [htj] at h1
  exact collect_of_occurs h1 hiv hsh []

theorem decl_protocol {d : Doc} {s : StudyJson} {p : ProtocolJson}
    (hs : s ∈ d.studies) (hp : p ∈ s.protocols) : declaredIn d p.id := by
  obtain ⟨o, htj, hiv, hsh⟩ := shape_protocol p
  have h1 : Occurs p.toJson d.toJson :=
    occurs_trans (occProtocolLoc hp) (occStudy hs)
  rw [htj] at h1
  exact collect_of_occurs h1 hiv hsh []

theorem decl_parameter {d : Doc} {s : StudyJson} {p : ProtocolJson}
    {pm : ParameterJson} (hs : s ∈ d.studies) (hp : p ∈ s.protocols)
    (hpm : pm ∈ p.parameters) : declaredIn d pm.id := by
  obtain ⟨o, htj, hiv, hsh⟩ := shape_parameter pm
  have h1 : Occurs pm.toJson d.toJson :=
    occurs_trans (occParameterLoc hpm)
      (occurs_trans (occProtocolLoc hp) (occStudy hs))
  rw [htj] at h1
  exact collect_of_occurs h1 hiv hsh []

theorem decl_factor {d : Doc} {s : StudyJson} {f : FactorJson}
    (hs : s ∈ d.studies) (hf : f ∈ s.factors) : declaredIn d f.id := by
  obtain ⟨o, htj, hiv, hsh⟩ := shape_factor f
  have h1 : Occurs f.toJson d.toJson :=
    occurs_trans (occFactorLoc hf) (occStudy hs)
  rw [htj] at h1
  exact collect_of_occurs h1 hiv hsh []

theorem decl_source {d : Doc} {s : StudyJson} {j : SourceJson}
    (hs : s ∈ d.studies) (hj : j ∈ s.materials.sources) : declaredIn d j.id := by
  obtain ⟨o, htj, hiv, hsh⟩ := shape_source j
  have h1 : Occurs j.toJson d.toJson :=
    occurs_trans (occSourceLoc hj) (occStudy hs)
  rw [htj] at h1
  exact collect_of_occurs h1 hiv hsh []

theorem decl_sample {d : Doc} {s : StudyJson} {j : SampleJson}
    (hs : s ∈ d.studies) (hj : j ∈ s.materials.samples) : declaredIn d j.id := by
  obtain ⟨o, htj, hiv, hsh⟩ := shape_sample j
  have h1 : Occurs j.toJson d.toJson :=
    occurs_trans (occSampleLoc hj) (occStudy hs)
  rw [htj] at h1
  exact collect_of_occurs h1 hiv hsh []

theorem decl_studyProc {d : Doc} {s : StudyJson} {p : ProcJson}
    (hs : s ∈ d.studies) (hp : p ∈ s.processSequence) : declaredIn d p.id := by
  obtain ⟨o, htj, hiv, hsh⟩ := shape_proc p
  have h1 : Occurs p.toJson d.toJson :=
    occurs_trans (occStudyProcLoc hp) (occStudy hs)
  rw [htj] at h1
  exact collect_of_occurs h1 hiv hsh []

theorem decl_assayProc {d : Doc} {s : StudyJson} {a : AssayJson} {p : ProcJson}
    (hs : s ∈ d.studies) (ha : a ∈ s.assays) (hp : p ∈ a.processSequence) :
    declaredIn d p.id := by
  obtain ⟨o, htj, hiv, hsh⟩ := shape_proc p
  have h1 : Occurs p.toJson d.toJson :=
    occurs_trans (occAssayProcLoc hp)
      (occurs_trans (occAssayLoc ha) (occStudy hs))
  rw [htj] at h1
  exact collect_of_occurs h1 hiv hsh []

theorem decl_dataFile {d : Doc} {s : StudyJson} {a : AssayJson}
    {f : DataFileJson} (hs : s ∈ d.studies) (ha : a ∈ s.assays)
    (hf : f ∈ a.dataFiles) : declaredIn d f.id := by
  obtain ⟨o, htj, hiv, hsh⟩ := shape_dataFile f
  have h1 : Occurs f.toJson d.toJson :=
    occurs_trans (occDataFileLoc hf)
      (occurs_trans (occAssayLoc ha) (occStudy hs))
  rw [htj] at h1
  exact collect_of_occurs h1 hiv hsh []

theorem decl_otherMaterial {d : Doc} {s : StudyJson} {a : AssayJson}
    {m : OtherMaterialJson} (hs : s ∈ d.studies) (ha : a ∈ s.assays)
    (hm : m ∈ a.materials.otherMaterials) : declaredIn d m.id := by
  obtain ⟨o, htj, hiv, hsh⟩ := shape_otherMaterial m
  have h1 : Occurs m.toJson d.toJson :=
    occurs_trans (occOtherMaterialLoc hm)
      (occurs_trans (occAssayLoc ha) (occStudy hs))
  rw [htj] at h1
  exact collect_of_occurs h1 hiv hsh []

end IsaJson

namespace IsaJson


theorem loadCharCatE_eq {st st2 : LState} {c : CharCatJson}
    (h : loadCharCatE st c = .ok st2) :
    st2 = { st with categories := c.id :: st.categories } := by
  unfold loadCharCatE getTermSourceE at h
  by_cases hc : c.characteristicType.termSource ∈ st.termSources
  · rw [if_pos hc] at h
    exact (Except.ok.inj h).symm
  · rw [if_neg hc] at h
    exact absurd h (by simp)

theorem loadUnitE_eq {st st2 : LState} {u : UnitJson}
    (h : loadUnitE st u = .ok st2) :
    st2 = { st with units := u.id :: st.units } := by
  unfold loadUnitE getTermSourceE at h
  by_cases hc : u.termSource ∈ st.termSources
  · rw [if_pos hc] at h
    exact (Except.ok.inj h).symm
  · rw [if_neg hc] at h
    exact absurd h (by simp)

theorem loadFactorE_eq {st st2 : LState} {f : FactorJson}
    (h : loadFactorE st f = .ok st2) :
    st2 = { st with factors := f.id :: st.factors } := by
  unfold loadFactorE getTermSourceE at h
  by_cases hc : f.factorType.termSource ∈ st.termSources
  · rw [if_pos hc] at h
    exact (Except.ok.inj h).symm
  · rw [if_neg hc] at h
    exact absurd h (by simp)

theorem loadParameterE_eq {st st2 : LState} {pm : ParameterJson}
    (h : loadParameterE st pm = .ok st2) :
    st2 = { st with parameters := pm.id :: st.parameters } := by
  unfold loadParameterE getTermSourceE at h
  by_cases hc : pm.parameterName.termSource ∈ st.termSources
  · rw [if_pos hc] at h
    exact (Except.ok.inj h).symm
  · rw [if_neg hc] at h
    exact absurd h (by simp)

theorem loadSourceE_eq {st st2 : LState} {j : SourceJson}
    (h : loadSourceE st j = .ok st2) :
    st2 = { st with sources := (j.id, mkSource j) :: st.sources } := by
  unfold loadSourceE at h
  cases hm : j.characteristics.mapM (loadCharacteristicE st) with
  | error e => rw [hm] at h; exact absurd h (by simp [Bind.bind, Except.bind])
  | ok l => rw [hm] at h; exact (Except.ok.inj h).symm

theorem loadSampleE_eq {st st2 : LState} {j : SampleJson}
    (h : loadSampleE st j = .ok st2) :
    st2 = { st with samples := (j.id, mkSample j) :: st.samples } := by
  unfold loadSampleE at h
  cases hm : j.characteristics.mapM (loadCharacteristicE st) with
  | error e => rw [hm] at h; exact absurd h (by simp [Bind.bind, Except.bind])
  | ok l =>
    rw [hm] at h
    cases hf : j.factorValues.mapM (loadFactorValueE st) with
    | error e => rw [hf] at h; exact absurd h (by simp [Bind.bind, Except.bind])
    | ok l2 => rw [hf] at h; exact (Except.ok.inj h).symm

theorem loadStudyProcessE_eq {st st2 : LState} {p : ProcJson}
    (h : loadStudyProcessE st p = .ok st2) :
    ∃ ins outs, st2 = { st with
                        processes := p.id :: st.processes,
                        procObjs := st.procObjs ++ [⟨p.id, ins, outs⟩] } := by
  unfold loadStudyProcessE at h
  split at h
  · exact Except.noConfusion h
  · split at h
    · exact Except.noConfusion h
    · split at h
      · exact Except.noConfusion h
      · split at h
        · exact Except.noConfusion h
        · split at h
          · exact Except.noConfusion h
          · exact ⟨_, _, (Except.ok.inj h).symm⟩

theorem loadAssayProcessBody_eq {matLocal dataLocal : Registry}
    {st st2 : LState} {p : ProcJson}
    (h : loadAssayProcessBody matLocal dataLocal st p = .ok st2) :
    ∃ ins outs, st2 = { st with
                        processes := p.id :: st.processes,
                        procObjs := st.procObjs ++ [⟨p.id, ins, outs⟩] } := by
  unfold loadAssayProcessBody at h
  split at h
  · exact Except.noConfusion h
  · split at h
    · exact Except.noConfusion h
    · split at h
      · exact Except.noConfusion h
      · exact ⟨_, _, (Except.ok.inj h).symm⟩

theorem loadAssayProcessE_eq {tech : String} {matLocal dataLocal : Registry}
    {st st2 : LState} {p : ProcJson}
    (h : loadAssayProcessE tech matLocal dataLocal st p = .ok st2) :
    ∃ ins outs, st2 = { st with
                        processes := p.id :: st.processes,
                        procObjs := st.procObjs ++ [⟨p.id, ins, outs⟩] } := by
  unfold loadAssayProcessE at h
  split at h
  · exact Except.noConfusion h
  · split at h
    · exact Except.noConfusion h
    · split at h
      · split at h
        · exact Except.noConfusion h
        · exact loadAssayProcessBody_eq h
      · exact loadAssayProcessBody_eq h


end IsaJson

namespace IsaJson

theorem ok_bind {α β : Type} (a : α) (f : α → Except String β) :
    (Except.ok a >>= f) = f a := rfl

theorem error_bind_ne {α β : Type} {e : String} {f : α → Except String β}
    {b : β} (hc : (Except.error e >>= f) = Except.ok b) : False :=
  Except.noConfusion hc

theorem loadProtocolE_pres {d : Doc} {s : StudyJson} {p : ProtocolJson}
    {st st2 : LState} (hs : s ∈ d.studies) (hp : p ∈ s.protocols)
    (hst : StInv d st) (h : loadProtocolE st p = .ok st2) : StInv d st2 := by
  unfold loadProtocolE at h
  cases hts : getTermSourceE st.termSources p.protocolType.termSource with
  | error e => rw [hts] at h; exact absurd h (fun hc => error_bind_ne hc)
  | ok u =>
    rw [hts] at h
    rw [ok_bind] at h
    cases hf : p.parameters.foldlM loadParameterE st with
    | error e => rw [hf] at h; exact absurd h (fun hc => error_bind_ne hc)
    | ok s1 =>
      rw [hf] at h
      rw [ok_bind] at h
      have hs1 : StInv d s1 := by
        refine foldlM_preserves loadParameterE (StInv d) p.parameters
          ?_ st s1 hst hf
        intro pm hpm t t2 ht hok
        have := loadParameterE_eq hok
        subst this
        exact StInv_cons_parameters ht (decl_parameter hs hp hpm)
      cases hc : p.components.mapM
          (fun c => getTermSourceE s1.termSources c.componentType.termSource) with
      | error e => rw [hc] at h; exact absurd h (fun hc => error_bind_ne hc)
      | ok l =>
        rw [hc] at h
        rw [ok_bind] at h
        have h2 : s1.protocols = st2.protocols → True := fun _ => trivial
        have : st2 = { s1 with
                       protocols := (p.id, p.protocolType.annotationValue) :: s1.protocols } :=
          (Except.ok.inj h).symm
        subst this
        exact StInv_cons_protocols hs1 (decl_protocol hs hp)

theorem pres_charCat_study {d : Doc} {s : StudyJson} {c : CharCatJson}
    {st st2 : LState} (hs : s ∈ d.studies)
    (hc : c ∈ s.characteristicCategories)
    (hst : StInv d st) (h : loadCharCatE st c = .ok st2) : StInv d st2 := by
  rw [loadCharCatE_eq h]
  exact StInv_cons_categories hst (decl_studyCharCat hs hc)

theorem pres_charCat_assay {d : Doc} {s : StudyJson} {a : AssayJson}
    {c : CharCatJson} {st st2 : LState} (hs : s ∈ d.studies)
    (ha : a ∈ s.assays) (hc : c ∈ a.characteristicCategories)
    (hst : StInv d st) (h : loadCharCatE st c = .ok st2) : StInv d st2 := by
  rw [loadCharCatE_eq h]
  exact StInv_cons_categories hst (decl_assayCharCat hs ha hc)

theorem pres_unit_study {d : Doc} {s : StudyJson} {u : UnitJson}
    {st st2 : LState} (hs : s ∈ d.studies) (hu : u ∈ s.unitCategories)
    (hst : StInv d st) (h : loadUnitE st u = .ok st2) : StInv d st2 := by
  rw [loadUnitE_eq h]
  exact StInv_cons_units hst (decl_studyUnit hs hu)

theorem pres_unit_assay {d : Doc} {s : StudyJson} {a : AssayJson}
    {u : UnitJson} {st st2 : LState} (hs : s ∈ d.studies)
    (ha : a ∈ s.assays) (hu : u ∈ a.unitCategories)
    (hst : StInv d st) (h : loadUnitE st u = .ok st2) : StInv d st2 := by
  rw [loadUnitE_eq h]
  exact StInv_cons_units hst (decl_assayUnit hs ha hu)

theorem pres_factor {d : Doc} {s : StudyJson} {f : FactorJson}
    {st st2 : LState} (hs : s ∈ d.studies) (hf : f ∈ s.factors)
    (hst : StInv d st) (h : loadFactorE st f = .ok st2) : StInv d st2 := by
  rw [loadFactorE_eq h]
  exact StInv_cons_factors hst (decl_factor hs hf)

theorem pres_source {d : Doc} {s : StudyJson} {j : SourceJson}
    {st st2 : LState} (hs : s ∈ d.studies) (hj : j ∈ s.materials.sources)
    (hst : StInv d st) (h : loadSourceE st j = .ok st2) : StInv d st2 := by
  rw [loadSourceE_eq h]
  exact StInv_cons_sources hst hs hj

theorem pres_sample {d : Doc} {s : StudyJson} {j : SampleJson}
    {st st2 : LState} (hs : s ∈ d.studies) (hj : j ∈ s.materials.samples)
    (hst : StInv d st) (h : loadSampleE st j = .ok st2) : StInv d st2 := by
  rw [loadSampleE_eq h]
  exact StInv_cons_samples hst hs hj

theorem pres_studyProc {d : Doc} {s : StudyJson} {p : ProcJson}
    {st st2 : LState} (hs : s ∈ d.studies) (hp : p ∈ s.processSequence)
    (hst : StInv d st) (h : loadStudyProcessE st p = .ok st2) : StInv d st2 := by
  obtain ⟨ins, outs, rfl⟩ := loadStudyProcessE_eq h
  exact StInv_cons_processes hst (decl_studyProc hs hp)

theorem pres_assayProc {d : Doc} {s : StudyJson} {a : AssayJson}
    {tech : String} {matLocal dataLocal : Registry} {p : ProcJson}
    {st st2 : LState} (hs : s ∈ d.studies) (ha : a ∈ s.assays)
    (hp : p ∈ a.processSequence) (hst : StInv d st)
    (h : loadAssayProcessE tech matLocal dataLocal st p = .ok st2) :
    StInv d st2 := by
  obtain ⟨ins, outs, rfl⟩ := loadAssayProcessE_eq h
  exact StInv_cons_processes hst (decl_assayProc hs ha hp)

theorem mem_foldl_cons {α β : Type} (f : α → β) :
    ∀ (l : List α) (acc : List β) (x : β),
      x ∈ l.foldl (fun ac j => f j :: ac) acc →
      (∃ j, j ∈ l ∧ x = f j) ∨ x ∈ acc
  | [], _, _, hx => .inr hx
  | a :: l, acc, x, hx => by
    rw [List.foldl_cons] at hx
    rcases mem_foldl_cons f l (f a :: acc) x hx with ⟨j, hj, rfl⟩ | hacc
    · exact .inl ⟨j, .tail _ hj, rfl⟩
    · rcases List.mem_cons.mp hacc with rfl | hacc2
      · exact .inl ⟨a, .head _, rfl⟩
      · exact .inr hacc2

theorem loadAssayE_pres {d : Doc} {s : StudyJson} {a : AssayJson}
    {st st2 : LState} (hs : s ∈ d.studies) (ha : a ∈ s.assays)
    (hst : StInv d st) (h : loadAssayE st a = .ok st2) : StInv d st2 := by
  unfold loadAssayE at h
  cases h1 : getTermSourceE st.termSources a.measurementType.termSource with
  | error e => rw [h1] at h; exact absurd h (fun hc => error_bind_ne hc)
  | ok u1 =>
  rw [h1, ok_bind] at h
  cases h2 : getTermSourceE st.termSources a.technologyType.termSource with
  | error e => rw [h2] at h; exact absurd h (fun hc => error_bind_ne hc)
  | ok u2 =>
  rw [h2, ok_bind] at h
  cases h3 : a.unitCategories.foldlM loadUnitE st with
  | error e => rw [h3] at h; exact absurd h (fun hc => error_bind_ne hc)
  | ok stb =>
  rw [h3, ok_bind] at h
  have hstb : StInv d stb :=
    foldlM_preserves loadUnitE (StInv d) a.unitCategories
      (fun u hu t t2 ht hok => pres_unit_assay hs ha hu ht hok) st stb hst h3
  cases h4 : checkAssaySampleRefs stb.samples a.materials.samples with
  | error e => rw [h4] at h; exact absurd h (fun hc => error_bind_ne hc)
  | ok l4 =>
  rw [h4, ok_bind] at h
  cases h5 : a.characteristicCategories.foldlM loadCharCatE stb with
  | error e => rw [h5] at h; exact absurd h (fun hc => error_bind_ne hc)
  | ok stc =>
  rw [h5, ok_bind] at h
  have hstc : StInv d stc :=
    foldlM_preserves loadCharCatE (StInv d) a.characteristicCategories
      (fun c hc t t2 ht hok => pres_charCat_assay hs ha hc ht hok) stb stc hstb h5
  cases h6 : checkAssayMatChars stc a.materials.otherMaterials with
  | error e => rw [h6] at h; exact absurd h (fun hc => error_bind_ne hc)
  | ok l6 =>
  rw [h6, ok_bind] at h
  cases h7 : a.processSequence.foldlM
      (loadAssayProcessE a.technologyType.annotationValue (assayMatLocal a)
        (assayDataLocal a)) stc with
  | error e => rw [h7] at h; exact absurd h (fun hc => error_bind_ne hc)
  | ok std2 =>
  rw [h7, ok_bind] at h
  have hstd : StInv d std2 :=
    foldlM_preserves _ (StInv d) a.processSequence
      (fun p hp t t2 ht hok => pres_assayProc hs ha hp ht hok) stc std2 hstc h7
  have hfin : st2 = { std2 with
                      otherMaterialsAll := assayMatLocal a ++ std2.otherMaterialsAll,
                      dataFilesAll := assayDataLocal a ++ std2.dataFilesAll } :=
    (Except.ok.inj h).symm
  subst hfin
  refine StInv_append_locals hstd ?_ ?_
  · intro pr hpr
    rw [assayMatLocal] at hpr
    rcases mem_foldl_cons (fun j => (j.id, mkOtherMaterial j))
        a.materials.otherMaterials [] pr hpr with ⟨j, hj, rfl⟩ | hacc
    · exact ⟨s, a, j, hs, ha, hj, rfl⟩
    · exact absurd hacc (List.not_mem_nil pr)
  · intro pr hpr
    rw [assayDataLocal] at hpr
    rcases mem_foldl_cons (fun j => (j.id, mkDataFile j))
        a.dataFiles [] pr hpr with ⟨j, hj, rfl⟩ | hacc
    · exact ⟨s, a, j, hs, ha, hj, rfl⟩
    · exact absurd hacc (List.not_mem_nil pr)

theorem loadStudyE_pres {d : Doc} {s : StudyJson} {st st2 : LState}
    (hs : s ∈ d.studies) (hst : StInv d st)
    (h : loadStudyE st s = .ok st2) : StInv d st2 := by
  unfold loadStudyE at h
  cases h1 : s.characteristicCategories.foldlM loadCharCatE st with
  | error e => rw [h1] at h; exact absurd h (fun hc => error_bind_ne hc)
  | ok s1 =>
  rw [h1, ok_bind] at h
  have hs1 : StInv d s1 :=
    foldlM_preserves loadCharCatE (StInv d) s.characteristicCategories
      (fun c hc t t2 ht hok => pres_charCat_study hs hc ht hok) st s1 hst h1
  cases h2 : s.unitCategories.foldlM loadUnitE s1 with
  | error e => rw [h2] at h; exact absurd h (fun hc => error_bind_ne hc)
  | ok s2 =>
  rw [h2, ok_bind] at h
  have hs2 : StInv d s2 :=
    foldlM_preserves loadUnitE (StInv d) s.unitCategories
      (fun u hu t t2 ht hok => pres_unit_study hs hu ht hok) s1 s2 hs1 h2
  cases h3 : s.publications.mapM (loadPublicationE s2.termSources) with
  | error e => rw [h3] at h; exact absurd h (fun hc => error_bind_ne hc)
  | ok l3 =>
  rw [h3, ok_bind] at h
  cases h4 : s.people.mapM (loadPersonE s2.termSources false) with
  | error e => rw [h4] at h; exact absurd h (fun hc => error_bind_ne hc)
  | ok l4 =>
  rw [h4, ok_bind] at h
  cases h5 : s.studyDesignDescriptors.mapM
      (fun a => getTermSourceE s2.termSources a.termSource) with
  | error e => rw [h5] at h; exact absurd h (fun hc => error_bind_ne hc)
  | ok l5 =>
  rw [h5, ok_bind] at h
  cases h6 : s.protocols.foldlM loadProtocolE s2 with
  | error e => rw [h6] at h; exact absurd h (fun hc => error_bind_ne hc)
  | ok s6 =>
  rw [h6, ok_bind] at h
  have hs6 : StInv d s6 :=
    foldlM_preserves loadProtocolE (StInv d) s.protocols
      (fun p hp t t2 ht hok => loadProtocolE_pres hs hp ht hok) s2 s6 hs2 h6
  cases h7 : s.factors.foldlM loadFactorE s6 with
  | error e => rw [h7] at h; exact absurd h (fun hc => error_bind_ne hc)
  | ok s7 =>
  rw [h7, ok_bind] at h
  have hs7 : StInv d s7 :=
    foldlM_preserves loadFactorE (StInv d) s.factors
      (fun f hf t t2 ht hok => pres_factor hs hf ht hok) s6 s7 hs6 h7
  cases h8 : s.materials.sources.foldlM loadSourceE s7 with
  | error e => rw [h8] at h; exact absurd h (fun hc => error_bind_ne hc)
  | ok s8 =>
  rw [h8, ok_bind] at h
  have hs8 : StInv d s8 :=
    foldlM_preserves loadSourceE (StInv d) s.materials.sources
      (fun j hj t t2 ht hok => pres_source hs hj ht hok) s7 s8 hs7 h8
  cases h9 : s.materials.samples.foldlM loadSampleE s8 with
  | error e => rw [h9] at h; exact absurd h (fun hc => error_bind_ne hc)
  | ok s9 =>
  rw [h9, ok_bind] at h
  have hs9 : StInv d s9 :=
    foldlM_preserves loadSampleE (StInv d) s.materials.samples
      (fun j hj t t2 ht hok => pres_sample hs hj ht hok) s8 s9 hs8 h9
  cases h10 : s.processSequence.foldlM loadStudyProcessE s9 with
  | error e => rw [h10] at h; exact absurd h (fun hc => error_bind_ne hc)
  | ok s10 =>
  rw [h10, ok_bind] at h
  have hs10 : StInv d s10 :=
    foldlM_preserves loadStudyProcessE (StInv d) s.processSequence
      (fun p hp t t2 ht hok => pres_studyProc hs hp ht hok) s9 s10 hs9 h10
  cases h11 : s.assays.foldlM loadAssayE s10 with
  | error e => rw [h11] at h; exact absurd h (fun hc => error_bind_ne hc)
  | ok s11 =>
  rw [h11, ok_bind] at h
  have hs11 : StInv d s11 :=
    foldlM_preserves loadAssayE (StInv d) s.assays
      (fun a ha t t2 ht hok => loadAssayE_pres hs ha ht hok) s10 s11 hs10 h11
  cases h
  exact hs11

theorem StInv_initial (d : Doc) (tss : List String) :
    StInv d { initialState with termSources := tss } := by
  refine ⟨?_, ?_, ?_, ?_, ?_, ?_, ?_, ?_, ?_, ?_⟩ <;>
    intro x hx <;> exact absurd hx (List.not_mem_nil x)

theorem loadModel_inv {d : Doc} {st : LState}
    (h : loadModel d = .ok st) : StInv d st := by
  unfold loadModel at h
  simp only [] at h
  cases h1 : d.publications.mapM (loadPublicationE (loadOsrs d)) with
  | error e => rw [h1] at h; exact absurd h (fun hc => error_bind_ne hc)
  | ok l1 =>
  rw [h1, ok_bind] at h
  cases h2 : d.people.mapM (loadPersonE (loadOsrs d) true) with
  | error e => rw [h2] at h; exact absurd h (fun hc => error_bind_ne hc)
  | ok l2 =>
  rw [h2, ok_bind] at h
  cases h3 : d.studies.foldlM
      (fun st s =>
        s.assays.foldlM
          (fun st a => a.characteristicCategories.foldlM loadCharCatE st) st)
      { initialState with termSources := loadOsrs d } with
  | error e => rw [h3] at h; exact absurd h (fun hc => error_bind_ne hc)
  | ok st1 =>
  rw [h3, ok_bind] at h
  have hst1 : StInv d st1 := by
    refine foldlM_preserves _ (StInv d) d.studies ?_ _ st1
      (StInv_initial d (loadOsrs d)) h3
    intro s hsm t t2 ht hok
    refine foldlM_preserves _ (StInv d) s.assays ?_ t t2 ht hok
    intro a ham u u2 hu huok
    refine foldlM_preserves loadCharCatE (StInv d)
      a.characteristicCategories ?_ u u2 hu huok
    intro c hcm v v2 hv hvok
    exact pres_charCat_assay hsm ham hcm hv hvok
  exact foldlM_preserves loadStudyE (StInv d) d.studies
    (fun s hsm t t2 ht hok => loadStudyE_pres hsm ht hok) st1 st hst1 h

end IsaJson

namespace IsaJson

/-- C7: after a successful load, every identifier held by any registry is
declared in the document in the walker sense (an object with `@id` plus at
least one other key). -/
theorem c7_registry_ids_are_declared {d : Doc} {st : LState}
    (h : loadModel d = .ok st) :
    ∀ x, x ∈ st.allIds → Json.str x ∈ collectObjectRefs d.toJson [] := by
  obtain ⟨h1, h2, h3, h4, h5, h6, h7, h8, h9, h10⟩ := loadModel_inv h
  intro x hx
  unfold LState.allIds at hx
  simp only [List.mem_append, List.mem_map] at hx
  rcases hx with ((((((((hx | hx) | hx) | hx) | hx) | hx) | hx) | hx) | hx) | hx
  · obtain ⟨pr, hpr, hx1⟩ := hx
    obtain ⟨s, j, hs, hj, rfl⟩ := h1 pr hpr
    rcases hx1 with rfl
    exact decl_source hs hj
  · obtain ⟨pr, hpr, hx1⟩ := hx
    obtain ⟨s, j, hs, hj, rfl⟩ := h2 pr hpr
    rcases hx1 with rfl
    exact decl_sample hs hj
  · obtain ⟨pr, hpr, hx1⟩ := hx
    obtain ⟨s, a, j, hs, ha, hj, rfl⟩ := h3 pr hpr
    rcases hx1 with rfl
    exact decl_otherMaterial hs ha hj
  · obtain ⟨pr, hpr, hx1⟩ := hx
    obtain ⟨s, a, j, hs, ha, hj, rfl⟩ := h4 pr hpr
    rcases hx1 with rfl
    exact decl_dataFile hs ha hj
  · obtain ⟨pr, hpr, hx1⟩ := hx
    rcases hx1 with rfl
    exact h5 pr hpr
  · exact h6 x hx
  · exact h7 x hx
  · exact h8 x hx
  · exact h9 x hx
  · exact h10 x hx

/-- An investigation whose only declared object is the `@id`-bearing
status annotation of an investigation publication: the walker collects its
identifier, but `load` registers nothing at all. -/
def c7doc : Doc :=
  { identifier := "I1", title := "", description := "",
    submissionDate := "", publicReleaseDate := "", comments := [],
    ontologySourceReferences := [],
    publications := [⟨"", "", "", "",
      ⟨some "#annotation/0", "published", "", ""⟩, none⟩],
    people := [], studies := [] }

def c7state : LState := { initialState with termSources := [""] }

/-- C7, counterexample: the claimed equality of the two identifier sets
fails in the declarations-to-registry direction — `#annotation/0` is a
walker declaration of `c7doc`, yet a full load succeeds with every
registry empty. -/
theorem c7_counterexample :
    loadModel c7doc = .ok c7state ∧
    Json.str "#annotation/0" ∈ collectObjectRefs c7doc.toJson [] ∧
    c7state.allIds = [] := by decide

/-- A one-study, one-source document for instantiating the C7/C10
theorems. -/
def c7wstudy : StudyJson :=
  { identifier := "S1", title := "", description := "",
    submissionDate := "", publicReleaseDate := "", filename := "s_file.txt",
    comments := none,
    characteristicCategories := [], unitCategories := [],
    publications := [], people := [], studyDesignDescriptors := [],
    protocols := [], factors := [],
    materials := ⟨[⟨"#source/1", "source-Alice", []⟩], []⟩,
    processSequence := [], assays := [] }

def c7wdoc : Doc :=
  { identifier := "I1", title := "", description := "",
    submissionDate := "", publicReleaseDate := "", comments := [],
    ontologySourceReferences := [], publications := [], people := [],
    studies := [c7wstudy] }

def c7wstate : LState :=
  { initialState with
    termSources := [""],
    sources := [("#source/1", .source "#source/1" "Alice")] }

theorem c7_witness :
    Json.str "#source/1" ∈ collectObjectRefs c7wdoc.toJson [] :=
  c7_registry_ids_are_declared
    (show loadModel c7wdoc = .ok c7wstate by decide) "#source/1" (by decide)

theorem strDrop_eq_self_iff (s : String) (k : Nat) (hk : 7 ≤ k) :
    (strDrop s k = s ↔ s = "") := by
  constructor
  · intro hshort
    have hdata : s.data.drop k = s.data := congrArg String.data hshort
    have hlen : (s.data.drop k).length = s.data.length := by rw [hdata]
    rw [List.length_drop] at hlen
    have h0 : s.data.length = 0 := by omega
    have hnil : s.data = [] := List.eq_nil_of_length_eq_zero h0
    cases s with
    | mk data => cases hnil; rfl
  · intro he
    rw [he]
    show (⟨List.drop k []⟩ : String) = ""
    rw [List.drop_nil]

/-- C10: after a successful load, every source and sample entity carries
the raw JSON name with its first 7 characters removed, and every
other-material entity the raw name with the 15-character
`labeledextract-` tag or otherwise its first 8 characters removed; the
stored name equals the raw name exactly when the raw name is the empty
string (for any cut of at least 7). -/
theorem c10_name_slicing {d : Doc} {st : LState}
    (h : loadModel d = .ok st) :
    (∀ pr, pr ∈ st.sources → ∃ s j, s ∈ d.studies ∧
       j ∈ s.materials.sources ∧
       pr.2 = .source j.id (strDrop j.name 7)) ∧
    (∀ pr, pr ∈ st.samples → ∃ s j, s ∈ d.studies ∧
       j ∈ s.materials.samples ∧
       pr.2 = .sample j.id (strDrop j.name 7)) ∧
    (∀ pr, pr ∈ st.otherMaterialsAll → ∃ s a j, s ∈ d.studies ∧
       a ∈ s.assays ∧ j ∈ a.materials.otherMaterials ∧
       pr.2 = (if listStartsWith j.name.data "labeledextract-".data then
                 .material j.id (strDrop j.name 15) j.mtype
               else .material j.id (strDrop j.name 8) j.mtype)) ∧
    (∀ s k, 7 ≤ k → (strDrop s k = s ↔ s = "")) := by
  obtain ⟨h1, h2, h3, _h4, _, _, _, _, _, _⟩ := loadModel_inv h
  refine ⟨?_, ?_, ?_, fun s k hk => strDrop_eq_self_iff s k hk⟩
  · intro pr hpr
    obtain ⟨s, j, hs, hj, rfl⟩ := h1 pr hpr
    exact ⟨s, j, hs, hj, rfl⟩
  · intro pr hpr
    obtain ⟨s, j, hs, hj, rfl⟩ := h2 pr hpr
    exact ⟨s, j, hs, hj, rfl⟩
  · intro pr hpr
    obtain ⟨s, a, j, hs, ha, hj, rfl⟩ := h3 pr hpr
    refine ⟨s, a, j, hs, ha, hj, ?_⟩
    unfold mkOtherMaterial
    rfl

def c10src : SourceJson := ⟨"#source/0", "", []⟩

def c10study : StudyJson :=
  { identifier := "S1", title := "", description := "",
    submissionDate := "", publicReleaseDate := "", filename := "s_file.txt",
    comments := none,
    characteristicCategories := [], unitCategories := [],
    publications := [], people := [], studyDesignDescriptors := [],
    protocols := [], factors := [],
    materials := ⟨[c10src], []⟩,
    processSequence := [], assays := [] }

def c10doc : Doc :=
  { identifier := "I1", title := "", description := "",
    submissionDate := "", publicReleaseDate := "", comments := [],
    ontologySourceReferences := [], publications := [], people := [],
    studies := [c10study] }

def c10state : LState :=
  { initialState with
    termSources := [""],
    sources := [("#source/0", .source "#source/0" "")] }

/-- C10, counterexample: a source whose raw JSON name is the empty string
loads successfully and the entity name stored for it is that raw name
verbatim, refuting the clause that the raw name string is never stored
verbatim. -/
theorem c10_counterexample :
    loadModel c10doc = .ok c10state ∧
    alookup c10state.sources "#source/0" =
      some (.source "#source/0" "") ∧
    (Entity.source "#source/0" "").ename = c10src.name := by decide

theorem c10_witness :
    ∃ s j, s ∈ c7wdoc.studies ∧ j ∈ s.materials.sources ∧
      (("#source/1", Entity.source "#source/1" "Alice") : String × Entity).2 =
        .source j.id (strDrop j.name 7) :=
  (c10_name_slicing (show loadModel c7wdoc = .ok c7wstate by decide)).1
    ("#source/1", .source "#source/1" "Alice") (by decide)

end IsaJson
